import Mathlib

/-!
Shallow embedding of the MoveDetect movement-detection library
(stephanecharette/MoveDetect), current library generation
`src/src-lib/MoveDetect.cpp` / `src/src-lib/MoveDetect.hpp`.

Images (`cv::Mat`) are modelled as dense row-major pixel grids of
8-bit-per-channel natural-number samples.  The engine (`MoveDetect::Handler`)
is a record of the same fields as the C++ class; `detect` is modelled as a
total function returning the result of the call (an `Except`, modelling the
thrown `std::invalid_argument` exceptions) together with the state of the
handler object when the call returns or when the exception escapes, since
the C++ object keeps every mutation made before a throw.

External OpenCV routines invoked by the library are modelled at contract
level where their pixel-exact output is irrelevant to every theorem below
(interpolation weights of `cv::resize`, the drawing routines); the comments
on each definition state exactly what is and is not modelled.  The error
behaviour of `cv::resize` — it throws when asked for a destination size
with a zero dimension, which `detect` can compute from a small frame and a
clamped thumbnail ratio — is modelled faithfully by a guard inside
`detect`, at the same point in the control flow as the C++ call.
-/

set_option maxRecDepth 4000

/-- Decidable equality for `Except`, used to evaluate concrete `detect`
results. -/
instance {ε α : Type} [DecidableEq ε] [DecidableEq α] : DecidableEq (Except ε α) :=
  fun x y =>
    match x, y with
    | .error a, .error b =>
        if h : a = b then isTrue (by rw [h]) else isFalse (by simp [h])
    | .error _, .ok _ => isFalse (by simp)
    | .ok _, .error _ => isFalse (by simp)
    | .ok a, .ok b =>
        if h : a = b then isTrue (by rw [h]) else isFalse (by simp [h])

namespace MoveDetect

/-- Model of `cv::Mat`: a dense 2-D pixel buffer.  `data` is row-major:
a list of `rows` rows, each a list of `cols` pixels, each a list of
`channels` 8-bit samples (stored as `ℕ`).  All mats handled by the library
are 8 bits per channel, so the OpenCV `type()` of a mat is determined by
its channel count; the `type()` comparison in `psnr` is therefore modelled
as a comparison of `channels`. -/
structure Img where
  rows : ℕ
  cols : ℕ
  channels : ℕ
  data : List (List (List ℕ))
deriving DecidableEq, Repr

/-- Model of `cv::Mat::total()`: the number of pixels. -/
def Img.total (m : Img) : ℕ := m.rows * m.cols

/-- Model of `cv::Mat::empty()`: true when the mat holds no pixels. -/
def Img.empty (m : Img) : Bool := m.total == 0

/-- Pixel accessor (out-of-range reads yield an empty pixel; every use in
the development stays in range). -/
def Img.pixel (m : Img) (r c : ℕ) : List ℕ := (m.data.getD r []).getD c []

/-- Model of a default-constructed `cv::Mat()` (as assigned to `mask` and
`output` by `Handler::clear`). -/
def matDefault : Img := ⟨0, 0, 1, []⟩

/-- Convenience constructor for a solid-colour image: every pixel holds the
sample list `px`. -/
def solid (rows cols : ℕ) (px : List ℕ) : Img :=
  ⟨rows, cols, px.length, List.replicate rows (List.replicate cols px)⟩

/-- Squared absolute difference of two 8-bit samples, as computed by
`cv::absdiff` followed by squaring (lines 24-26 of `psnr`). -/
def sqDiff (x y : ℕ) : ℕ := (max x y - min x y) ^ 2

/-- Sum over all pixels of the squared difference in channel `ch`
(one slot of the `cv::Scalar` returned by `cv::sum`). -/
def channelSSE (a b : Img) (ch : ℕ) : ℕ :=
  (List.zipWith
    (fun ra rb =>
      (List.zipWith (fun pa pb => sqDiff (pa.getD ch 0) (pb.getD ch 0)) ra rb).sum)
    a.data b.data).sum

/-- Sum of squared errors `s.val[0] + s.val[1] + s.val[2]` (line 28 of
`MoveDetect.cpp`): channels beyond the third are ignored, exactly as the
C++ sums only the first three `cv::Scalar` slots. -/
def sseVal (a b : Img) : ℕ := channelSSE a b 0 + channelSSE a b 1 + channelSSE a b 2

/-- Exact (unreduced) fraction `num / den`, used to model the `double`
quantities of the library (thumbnail ratio, psnr threshold, mean squared
error).  Every fraction built by the model has a positive denominator;
the comparison operations below are exact for such fractions.  A plain
pair is used instead of Mathlib's `ℚ` so that every operation reduces
inside the kernel (`Rat`'s normalising arithmetic does not), keeping all
concrete runs of the model decidable by `decide`.  All values the library
actually manipulates (0.01, 0.05, 1.0, 32.0, integer-valued sums and
counts) are exact in this representation, and no theorem below depends on
the sub-ulp rounding of the corresponding C++ doubles. -/
structure Frac where
  num : ℤ
  den : ℕ
deriving DecidableEq, Repr

/-- Fraction of an integer value. -/
def Frac.ofInt (n : ℤ) : Frac := ⟨n, 1⟩

/-- Exact comparison `a < b` by cross multiplication (valid for positive
denominators, which all fractions in the model have). -/
def Frac.lt (a b : Frac) : Bool := a.num * (b.den : ℤ) < b.num * (a.den : ℤ)

/-- Exact comparison `a ≤ b` by cross multiplication (positive
denominators). -/
def Frac.le (a b : Frac) : Bool := a.num * (b.den : ℤ) ≤ b.num * (a.den : ℤ)

/-- Product of a fraction with a natural number. -/
def Frac.mulNat (a : Frac) (n : ℕ) : Frac := ⟨a.num * (n : ℤ), a.den⟩

/-- Floor of a non-negative fraction, as a natural number.  This models
the C++ double-to-int conversion of `image.cols * thumbnail_ratio`
(truncation toward zero, which on the non-negative values involved is the
floor). -/
def Frac.floorNat (a : Frac) : ℕ := (a.num / (a.den : ℤ)).toNat

/-- Natural power of a fraction. -/
def Frac.powNat (a : Frac) (k : ℕ) : Frac := ⟨a.num ^ k, a.den ^ k⟩

/-- The fraction `10 ^ n` for an integer exponent `n`. -/
def Frac.tenPow (n : ℤ) : Frac :=
  if 0 ≤ n then ⟨(10 : ℤ) ^ n.toNat, 1⟩ else ⟨1, (10 : ℕ) ^ (-n).toNat⟩

/-- Return value of `MoveDetect::psnr`.  The C++ function returns a
`double`: either the literal `0.0` (the `sse <= 1e-10` branch — since the
SSE is a sum of integer squares, that condition is exactly `sse = 0`), or
`10*log10(255*255 / mse)`.  The embedding keeps the branch and the exact
rational `mse`; comparisons of the score against a rational threshold are
made through `PsnrScore.ltQ`, which encodes the real-number comparison
exactly. -/
inductive PsnrScore where
  /-- The `return 0.0` branch taken when the sum of squared errors vanishes. -/
  | zero : PsnrScore
  /-- The `10*log10(65025/mse)` value, represented by its (positive) `mse`. -/
  | log (mse : Frac) : PsnrScore
deriving DecidableEq, Repr

/-- Exact decision of `score < t` for a psnr score and a rational
threshold `t` (with positive denominator).  For the `zero` branch this is
the comparison `0.0 < t`.  For the `log mse` branch (where `mse > 0`
always holds by construction, so `mse.num > 0`),
`10*log10(65025/mse) < t  ↔  65025/mse < 10^(t/10)  ↔
(65025/mse)^(10*t.den) < 10^t.num`, because `x ↦ x^(10*t.den)` is
strictly monotone on positive rationals and
`(10^(t/10))^(10*t.den) = 10^t.num` (this holds for any representation of
`t` with positive denominator, reduced or not).  The fraction
`65025/mse = (65025*mse.den) / mse.num` is formed with `Int.toNat` on the
(positive) numerator of `mse`. -/
def PsnrScore.ltQ : PsnrScore → Frac → Bool
  | .zero, t => Frac.lt ⟨0, 1⟩ t
  | .log mse, t =>
      Frac.lt (Frac.powNat ⟨65025 * (mse.den : ℤ), mse.num.toNat⟩ (10 * t.den))
        (Frac.tenPow t.num)

/-- Shallow embedding of `MoveDetect::psnr` (src/src-lib/MoveDetect.cpp,
lines 9-39).  Exceptions are modelled by `Except.error` carrying the
`std::invalid_argument` message. -/
def psnr (src dst : Img) : Except String PsnrScore :=
  if src.empty || dst.empty then
    .error "cannot calculate psnr using empty image"
  else if src.channels != dst.channels || src.cols != dst.cols || src.rows != dst.rows then
    .error "src and dst images cannot be compared"
  else
    let sse := sseVal src dst
    if sse = 0 then
      .ok PsnrScore.zero
    else
      .ok (PsnrScore.log ⟨(sse : ℤ), src.channels * src.total⟩)

/-- Sum of channel-`ch` samples over the `bh × bw` source block with corner
`(r0, c0)`. -/
def blockSum (m : Img) (r0 c0 bh bw ch : ℕ) : ℕ :=
  ((List.range bh).map (fun dr =>
    ((List.range bw).map (fun dc => (m.pixel (r0 + dr) (c0 + dc)).getD ch 0)).sum)).sum

/-- Model of `cv::resize(..., INTER_AREA)` for a valid (positive) target
width `w` and height `h`: each destination sample is the average of the
corresponding source block.  The model is pixel-exact for integer scale
factors (the only cases any theorem below evaluates; in particular it is
the identity at scale 1); for fractional scales OpenCV additionally
weights partially covered source pixels, which no theorem depends on.
The destination dimensions and channel count — the only facts about
`resize` the proofs use — match OpenCV exactly.  `cv::resize` *throws*
when the destination size has a zero dimension (the size is empty and the
explicit scale factors are zero); that error path is modelled where the
library hits it, by the guard inside `detect` below — this function is
only reached with positive dimensions. -/
def resizeArea (m : Img) (w h : ℕ) : Img :=
  let bw := m.cols / w
  let bh := m.rows / h
  { rows := h, cols := w, channels := m.channels,
    data := (List.range h).map (fun r => (List.range w).map (fun c =>
      (List.range m.channels).map (fun ch =>
        blockSum m (r * bh) (c * bw) bh bw ch / (bh * bw)))) }

/-- Model of `cv::absdiff` on two same-shape mats (line 179). -/
def absdiffImg (a b : Img) : Img :=
  { rows := a.rows, cols := a.cols, channels := a.channels,
    data := List.zipWith
      (fun ra rb => List.zipWith
        (fun pa pb => List.zipWith (fun x y => max x y - min x y) pa pb) ra rb)
      a.data b.data }

/-- Model of `cv::resize(..., INTER_CUBIC)` used for upscaling the tiny
difference image (line 185): dimensions and channels are exact; sample
values are point-sampled (the cubic interpolation weights are not
modelled — no theorem depends on the interpolated values). -/
def resizeCubic (m : Img) (w h : ℕ) : Img :=
  { rows := h, cols := w, channels := m.channels,
    data := (List.range h).map (fun r => (List.range w).map (fun c =>
      m.pixel (r * m.rows / h) (c * m.cols / w))) }

/-- Model of `cv::cvtColor(..., COLOR_BGR2GRAY)` (line 190): channel 0 is
blue, 1 green, 2 red; `Y = 0.299 R + 0.587 G + 0.114 B`, rounded. -/
def bgr2gray (m : Img) : Img :=
  { rows := m.rows, cols := m.cols, channels := 1,
    data := m.data.map (fun row => row.map (fun px =>
      [(114 * px.getD 0 0 + 587 * px.getD 1 0 + 299 * px.getD 2 0 + 500) / 1000])) }

/-- All grey samples of a single-channel image, for the Otsu histogram. -/
def grayValues (g : Img) : List ℕ :=
  g.data.flatMap (fun row => row.map (fun px => px.getD 0 0))

/-- Between-class variance of the split of `vals` at threshold `t`
(the quantity Otsu's method maximises). -/
def otsuVariance (vals : List ℕ) (t : ℕ) : ℚ :=
  let c0 := vals.filter (fun v => decide (v ≤ t))
  let c1 := vals.filter (fun v => decide (t < v))
  if c0.length = 0 ∨ c1.length = 0 then 0
  else
    ((c0.length : ℚ) * (c1.length : ℚ)) *
      ((c0.sum : ℚ) / (c0.length : ℚ) - (c1.sum : ℚ) / (c1.length : ℚ)) ^ 2

/-- Threshold selected by Otsu's method: the `t ∈ [0, 255]` maximising the
between-class variance. -/
def otsuThreshold (g : Img) : ℕ :=
  let vals := grayValues g
  (List.range 256).foldl
    (fun best t => if otsuVariance vals best < otsuVariance vals t then t else best) 0

/-- Model of `cv::threshold(..., THRESH_BINARY | THRESH_OTSU)` (line 192). -/
def threshBinaryOtsu (g : Img) : Img :=
  let t := otsuThreshold g
  { rows := g.rows, cols := g.cols, channels := 1,
    data := g.data.map (fun row => row.map (fun px =>
      [if t < px.getD 0 0 then (255 : ℕ) else 0])) }

/-- Border-replicating single-channel read, for the morphology kernels. -/
def pixelClamped (g : Img) (r c : ℕ) : ℕ :=
  (g.pixel (min r (g.rows - 1)) (min c (g.cols - 1))).getD 0 0

/-- The 3×3 neighbourhood of `(r, c)` (truncated subtraction replicates the
top/left border, `min` in `pixelClamped` the bottom/right border). -/
def neighborhood (r c : ℕ) : List (ℕ × ℕ) :=
  [(r - 1, c - 1), (r - 1, c), (r - 1, c + 1),
   (r, c - 1), (r, c), (r, c + 1),
   (r + 1, c - 1), (r + 1, c), (r + 1, c + 1)]

/-- One iteration of `cv::dilate` with the default 3×3 kernel (line 196). -/
def dilateOnce (g : Img) : Img :=
  { rows := g.rows, cols := g.cols, channels := 1,
    data := (List.range g.rows).map (fun r => (List.range g.cols).map (fun c =>
      [((neighborhood r c).map (fun rc => pixelClamped g rc.1 rc.2)).foldl max 0])) }

/-- One iteration of `cv::erode` with the default 3×3 kernel (line 198). -/
def erodeOnce (g : Img) : Img :=
  { rows := g.rows, cols := g.cols, channels := 1,
    data := (List.range g.rows).map (fun r => (List.range g.cols).map (fun c =>
      [((neighborhood r c).map (fun rc => pixelClamped g rc.1 rc.2)).foldl min 255])) }

/-- Iterated application of an image transform (the `iterations` argument
of `cv::dilate` / `cv::erode`). -/
def iterImg (f : Img → Img) : ℕ → Img → Img
  | 0, g => g
  | n + 1, g => iterImg f n (f g)

/-- Shallow embedding of the mask computation performed inside the
comparison loop of `Handler::detect` (src/src-lib/MoveDetect.cpp, lines
176-200): absolute difference of the two thumbnails, cubic upscale to the
input frame size, grey conversion, Otsu binarisation, then dilate and
erode ten times each. -/
def computeMask (val thumbnail image : Img) : Img :=
  let differences := absdiffImg val thumbnail
  let differences_resized := resizeCubic differences image.cols image.rows
  let greyscale := bgr2gray differences_resized
  let thresholded := threshBinaryOtsu greyscale
  let dilated := iterImg dilateOnce 10 thresholded
  let eroded := iterImg erodeOnce 10 dilated
  eroded

/-- Model of `cv::Mat(image.size(), CV_8UC1, {0, 0, 0})` (line 214): the
all-zero single-channel mat of the given size. -/
def zeroMask (rows cols : ℕ) : Img :=
  ⟨rows, cols, 1, List.replicate rows (List.replicate cols [0])⟩

/-- Model of `cv::boundingRect` on a single-channel mask: the smallest
axis-aligned rectangle `(x, y, w, h)` containing every non-zero pixel
(`(0,0,0,0)` when the mask is identically zero, as in OpenCV). -/
def boundingRectOf (mask : Img) : ℕ × ℕ × ℕ × ℕ :=
  let pts := (List.range mask.rows).flatMap (fun r =>
    ((List.range mask.cols).filter (fun c => (mask.pixel r c).getD 0 0 != 0)).map
      (fun c => (r, c)))
  match pts with
  | [] => (0, 0, 0, 0)
  | _ =>
    let rs := pts.map Prod.fst
    let cs := pts.map Prod.snd
    let rmin := rs.foldl min mask.rows
    let rmax := rs.foldl max 0
    let cmin := cs.foldl min mask.cols
    let cmax := cs.foldl max 0
    (cmin, rmin, cmax + 1 - cmin, rmax + 1 - rmin)

/-- Membership of `(r, c)` on the border of the rectangle `(x, y, w, h)`. -/
def onRectBorder (x y w h r c : ℕ) : Bool :=
  w != 0 && h != 0 &&
    (((r == y || r == y + h - 1) && x ≤ c && c < x + w) ||
     ((c == x || c == x + w - 1) && y ≤ r && r < y + h))

/-- Boundary test used by the contour-drawing model: a non-zero mask pixel
with some zero 4-neighbour (or sitting on the image edge). -/
def isMaskBoundary (mask : Img) (r c : ℕ) : Bool :=
  (mask.pixel r c).getD 0 0 != 0 &&
    (r == 0 || c == 0 || r + 1 == mask.rows || c + 1 == mask.cols ||
     (mask.pixel (r - 1) c).getD 0 0 == 0 || (mask.pixel (r + 1) c).getD 0 0 == 0 ||
     (mask.pixel r (c - 1)).getD 0 0 == 0 || (mask.pixel r (c + 1)).getD 0 0 == 0)

/-- Rebuild an image by a per-pixel function of position and old pixel. -/
def mapPixels (m : Img) (f : ℕ → ℕ → List ℕ → List ℕ) : Img :=
  { rows := m.rows, cols := m.cols, channels := m.channels,
    data := (List.range m.rows).map (fun r => (List.range m.cols).map (fun c =>
      f r c (m.pixel r c))) }

/-- Contract-level model of the annotation block of `Handler::detect`
(src/src-lib/MoveDetect.cpp, lines 217-241): clone the input frame, draw
the external mask contours in red (`cv::findContours` + `cv::polylines`,
modelled as colouring every boundary pixel of the mask) and/or the
bounding rectangle of the mask in yellow (`cv::boundingRect` +
`cv::rectangle`, modelled as colouring the rectangle border).  Line
thickness and line type affect only the drawn geometry, which no theorem
depends on; they are accepted and ignored. -/
def annotateOutput (image mask : Img) (contours bbox : Bool)
    (_contoursSz _bboxSz : ℤ) (_lineType : ℕ) : Img :=
  let out := image
  let out :=
    if contours then
      mapPixels out (fun r c px => if isMaskBoundary mask r c then [0, 0, 255] else px)
    else out
  if bbox then
    let rect := boundingRectOf mask
    mapPixels out (fun r c px =>
      if onRectBorder rect.1 rect.2.1 rect.2.2.1 rect.2.2.2 r c then [0, 255, 255] else px)
  else out

/-- Model of `cv::Size` (only the two fields the library touches). -/
structure CvSize where
  width : ℕ
  height : ℕ
deriving DecidableEq, Repr

/-- Model of `cv::Size::area()`. -/
def CvSize.area (s : CvSize) : ℕ := s.width * s.height

/-- Model of `std::clamp(v, lo, hi)` on exact fractions. -/
def clampF (v lo hi : Frac) : Frac :=
  if Frac.lt v lo then lo else if Frac.lt hi v then hi else v

/-- Shallow embedding of `MoveDetect::Handler` (src/src-lib/MoveDetect.hpp).
All fields of the C++ class are carried.  `most_recent_psnr_score` stores
the `PsnrScore` abstraction of the double field (the `clear` default `0.0`
coincides with the value of the `sse ≈ 0` branch, `PsnrScore.zero`).
`movement_last_detected` is an abstract clock tick supplied to `detect`
by the caller of the model (`std::chrono::high_resolution_clock::now()`). -/
structure Handler where
  movement_detected : Bool
  transition_detected : Bool
  next_frame_index : ℕ
  next_key_frame : ℕ
  key_frame_frequency : ℕ
  number_of_control_frames : ℕ
  psnr_threshold : Frac
  most_recent_psnr_score : PsnrScore
  thumbnail_ratio : Frac
  thumbnail_size : CvSize
  frame_index_with_movement : ℕ
  movement_last_detected : ℕ
  control : List (ℕ × Img)
  mask_enabled : Bool
  mask : Img
  line_type : ℕ
  contours_enabled : Bool
  contours_size : ℤ
  bbox_enabled : Bool
  bbox_size : ℤ
  output : Img
deriving DecidableEq, Repr

/-- State produced by `Handler::clear` (src/src-lib/MoveDetect.cpp, lines
99-124), which is also the constructor's state.  `0.05` and `32.0` are
exact at every image size used by the theorems below, and no theorem
depends on the sub-ulp difference between the double `0.05` and `1/20`. -/
def clearHandler : Handler :=
  { movement_detected := false
    transition_detected := false
    next_frame_index := 0
    next_key_frame := 0
    key_frame_frequency := 10
    number_of_control_frames := 4
    psnr_threshold := ⟨32, 1⟩
    most_recent_psnr_score := PsnrScore.zero
    thumbnail_ratio := ⟨1, 20⟩
    thumbnail_size := ⟨0, 0⟩
    frame_index_with_movement := 0
    movement_last_detected := 0
    control := []
    mask_enabled := false
    mask := matDefault
    line_type := 4
    contours_enabled := false
    contours_size := 1
    bbox_enabled := false
    bbox_size := 1
    output := matDefault }

/-- Model of `Handler::clear` (ignores the previous state, as the C++
method overwrites every field). -/
def Handler.clear (_h : Handler) : Handler := clearHandler

/-- Model of `Handler::empty` (src/src-lib/MoveDetect.cpp, lines 93-96). -/
def Handler.isBufferEmpty (h : Handler) : Bool := h.control.isEmpty

/-- Insertion into the `std::map<size_t, cv::Mat>` (`control[frame_index] =
thumbnail`, line 247): keeps the association list sorted by key ascending,
overwriting an existing key. -/
def mapInsert (k : ℕ) (v : Img) : List (ℕ × Img) → List (ℕ × Img)
  | [] => [(k, v)]
  | (k', v') :: rest =>
    if k < k' then (k, v) :: (k', v') :: rest
    else if k = k' then (k, v) :: rest
    else (k', v') :: mapInsert k v rest

/-- The eviction loop `while (control.size() > n) control.erase(control.begin())`
(lines 248-252): repeatedly drop the entry with the smallest key (the head
of the sorted list) while the size exceeds `cap`. -/
def evictLoop (cap : ℕ) : List (ℕ × Img) → List (ℕ × Img)
  | [] => []
  | x :: rest => if rest.length + 1 > cap then evictLoop cap rest else x :: rest

/-- Lines 140-146 of `Handler::detect`: when the cached thumbnail size has
area at most 1, clamp the ratio into `[0.01, 1.0]` (writing the clamped
value back) and recompute the thumbnail size from the current image
(double-to-int conversion truncates, hence `Nat.floor`). -/
def updateThumbSize (h : Handler) (image : Img) : Handler :=
  if h.thumbnail_size.area ≤ 1 then
    let ratio := clampF h.thumbnail_ratio ⟨1, 100⟩ ⟨1, 1⟩
    { h with thumbnail_ratio := ratio,
             thumbnail_size :=
               ⟨(ratio.mulNat image.cols).floorNat, (ratio.mulNat image.rows).floorNat⟩ }
  else h

/-- Lines 148-152 of `Handler::detect`: contours or bounding box force the
mask on. -/
def forceMask (h : Handler) : Handler :=
  if h.contours_enabled || h.bbox_enabled then { h with mask_enabled := true } else h

/-- The comparison loop of `Handler::detect` (lines 162-205), iterating the
control map in reverse (most-recent-first) order; the list argument is the
reversed control list.  Each iteration stores the psnr score; a score below
the threshold records movement (and the mask, when enabled) and breaks.  A
psnr exception escapes with the mutations made so far (`Option.some` with
the message). -/
def compareLoop (h : Handler) (thumbnail : Img) (frame_index now : ℕ) (image : Img) :
    List (ℕ × Img) → Option String × Handler
  | [] => (none, h)
  | kv :: rest =>
    match psnr kv.2 thumbnail with
    | .error e => (some e, h)
    | .ok score =>
      let h1 := { h with most_recent_psnr_score := score }
      if PsnrScore.ltQ score h1.psnr_threshold then
        let h2 := { h1 with movement_detected := true,
                            movement_last_detected := now,
                            frame_index_with_movement := frame_index }
        let h3 := if h2.mask_enabled then
                    { h2 with mask := computeMask kv.2 thumbnail image }
                  else h2
        (none, h3)
      else
        compareLoop h1 thumbnail frame_index now image rest

/-- Lines 209-242 of `Handler::detect`: when the mask is enabled, reset it
to an all-zero single-channel frame-sized mat if it is still unset or a
transition into no-movement occurred, then (when contours or bbox are
enabled) recompute the annotated output. -/
def maskAndAnnotate (h : Handler) (image : Img) : Handler :=
  if h.mask_enabled then
    let h1 :=
      if h.mask.empty || (h.transition_detected && h.movement_detected == false) then
        { h with mask := zeroMask image.rows image.cols }
      else h
    if h1.contours_enabled || h1.bbox_enabled then
      { h1 with output := annotateOutput image h1.mask h1.contours_enabled h1.bbox_enabled
                            h1.contours_size h1.bbox_size h1.line_type }
    else h1
  else h

/-- Lines 245-254 of `Handler::detect`: the control-buffer admission
policy.  When the frame index has reached the next key frame, or the buffer
is below capacity, store the thumbnail keyed by the frame index, evict the
smallest keys while over capacity, and schedule the next key frame. -/
def admitControl (h : Handler) (frame_index : ℕ) (thumbnail : Img) : Handler :=
  if frame_index ≥ h.next_key_frame || h.control.length < h.number_of_control_frames then
    { h with control := evictLoop h.number_of_control_frames
                          (mapInsert frame_index thumbnail h.control),
             next_key_frame := frame_index + h.key_frame_frequency }
  else h

/-- State of the handler after the entry blocks of `Handler::detect`
(thumbnail-size update of lines 140-146, mask forcing of lines 148-152). -/
def entryState (h : Handler) (image : Img) : Handler := forceMask (updateThumbSize h image)

/-- The thumbnail computed at lines 154-156 of `Handler::detect`
(`cv::resize(image, thumbnail, thumbnail_size, 0, 0, INTER_AREA)`;
the `simple_colour_balance` call of line 154 is commented out in the
source, `scb` aliases `image`). -/
def entryThumb (h : Handler) (image : Img) : Img :=
  resizeArea image (entryState h image).thumbnail_size.width
    (entryState h image).thumbnail_size.height

/-- State at the top of the comparison loop: line 163 clears the
`movement_detected` field before iterating. -/
def loopStart (h : Handler) (image : Img) : Handler :=
  { entryState h image with movement_detected := false }

/-- State construction of lines 207-257 for a completed (non-throwing)
comparison loop that left the handler in state `h4`, given the
`movement_detected` value saved at line 162 (`prev`): compute
`transition_detected`, refresh mask/output, run the admission policy,
advance `next_frame_index`. -/
def finishDetect (prev : Bool) (h4 : Handler) (frame_index : ℕ) (image thumbnail : Img) :
    Handler :=
  let h5 := { h4 with transition_detected := prev != h4.movement_detected }
  let h6 := maskAndAnnotate h5 image
  let h7 := admitControl h6 frame_index thumbnail
  { h7 with next_frame_index := frame_index + 1 }

/-- Shallow embedding of `Handler::detect(const size_t, cv::Mat &)`
(src/src-lib/MoveDetect.cpp, lines 133-259).  `now` is the clock tick
recorded if movement is detected.  The first component is the call's
result (`Except.error` models the thrown exceptions), the second the
state of the handler afterwards — also on the exception paths, where the
C++ object keeps the mutations already made.

The second branch models the `cv::Exception` thrown by the
`cv::resize(scb, thumbnail, thumbnail_size, 0, 0, INTER_AREA)` call of
line 156 when the computed thumbnail size has a zero dimension (OpenCV
rejects an empty destination size when the explicit scale factors are
zero).  This is reachable whenever `image-dimension × clamped-ratio`
truncates to 0.  At that point the handler already carries the entry
mutations of lines 140-152 (thumbnail ratio/size, forced `mask_enabled`),
i.e. exactly `entryState h image`, but `movement_detected` has not yet
been cleared — line 163 comes after the resize. -/
def detect (h : Handler) (frame_index : ℕ) (image : Img) (now : ℕ) :
    Except String Bool × Handler :=
  if image.empty then
    (.error "cannot detect using an empty image", h)
  else if (entryState h image).thumbnail_size.width = 0 ∨
      (entryState h image).thumbnail_size.height = 0 then
    (.error "OpenCV(resize): the computed thumbnail size is empty", entryState h image)
  else
    let thumbnail := entryThumb h image
    let h3 := loopStart h image
    match compareLoop h3 thumbnail frame_index now image h3.control.reverse with
    | (some e, h4) => (.error e, h4)
    | (none, h4) =>
      let h8 := finishDetect (entryState h image).movement_detected h4 frame_index
                  image thumbnail
      (.ok h8.movement_detected, h8)

/-- Shallow embedding of the implicit-index overload
`Handler::detect(cv::Mat &)` (lines 127-130). -/
def detectNext (h : Handler) (image : Img) (now : ℕ) : Except String Bool × Handler :=
  detect h h.next_frame_index image now

/-- Final handler state after a sequence of `detect` calls (clock tick 0
throughout; the tick influences only the stored timestamp). -/
def runDetect (h : Handler) : List (ℕ × Img) → Handler
  | [] => h
  | (i, img) :: rest => runDetect (detect h i img 0).2 rest

/-- Results of a sequence of `detect` calls. -/
def runResults (h : Handler) : List (ℕ × Img) → List (Except String Bool)
  | [] => []
  | (i, img) :: rest => (detect h i img 0).1 :: runResults (detect h i img 0).2 rest

/-- Whether an `Except` result is a success. -/
def isOkB : Except String Bool → Bool
  | .ok _ => true
  | .error _ => false

/-- Whether every call of the sequence succeeds (no exception thrown). -/
def runOk (h : Handler) : List (ℕ × Img) → Bool
  | [] => true
  | (i, img) :: rest => isOkB (detect h i img 0).1 && runOk (detect h i img 0).2 rest

/-- Keys of a control buffer. -/
def keysOf (m : List (ℕ × Img)) : List ℕ := m.map Prod.fst

/-- Sortedness invariant of the `std::map` model: keys strictly increase
along the list. -/
def MapSorted (m : List (ℕ × Img)) : Prop := m.Pairwise (fun a b => a.1 < b.1)

/-!
## Concrete fixtures used by the per-claim witnesses and counterexamples
-/

/-- C2 scenario frame: a 20×20 solid-colour three-channel frame (large
enough that the default 5% thumbnail ratio yields a non-degenerate 1×1
thumbnail). -/
def frame20 : Img := solid 20 20 [10, 20, 30]

/-- C2 scenario input: five identical frames at indices 0–4. -/
def framesC2 : List (ℕ × Img) :=
  [(0, frame20), (1, frame20), (2, frame20), (3, frame20), (4, frame20)]

/-- C3 counterexample state: movement currently detected, one stored 2×2
three-channel control thumbnail, thumbnail size already cached at 2×2. -/
def handlerC3 : Handler :=
  { clearHandler with movement_detected := true, thumbnail_size := ⟨2, 2⟩, control := [(0, solid 2 2 [1, 2, 3])] }

/-- C3 witness state for the resize-failure conjunct: movement currently
detected and a thumbnail ratio of 0.005, which a 2×2 frame turns into a
zero-width thumbnail after clamping to 0.01. -/
def handlerC3b : Handler :=
  { clearHandler with movement_detected := true, thumbnail_ratio := ⟨1, 200⟩ }

/-- C4 witness start state: a cleared handler with the thumbnail size
pre-cached at 2×2 so that 2×2 frames are compared as-is. -/
def handlerC4 : Handler := { clearHandler with thumbnail_size := ⟨2, 2⟩ }

/-- C4 witness input: two distinct increasing indices with identical 2×2
frames. -/
def framesC4 : List (ℕ × Img) := [(0, solid 2 2 [5, 6, 7]), (1, solid 2 2 [5, 6, 7])]

/-- C5 witness state: two stored control thumbnails, capacity 2, thumbnail
size cached at 2×2 — the next admission overflows the buffer and evicts
the smallest key. -/
def handlerC5 : Handler :=
  { clearHandler with thumbnail_size := ⟨2, 2⟩, number_of_control_frames := 2, control := [(0, solid 2 2 [5, 6, 7]), (1, solid 2 2 [8, 8, 8])] }

/-- C6 witness state: cleared handler with a pre-cached 2×2 thumbnail
size. -/
def handlerC6 : Handler := { clearHandler with thumbnail_size := ⟨2, 2⟩ }

/-- C7 witness state: mask generation on, movement currently detected,
empty control buffer — the next call detects no movement, a transition
into no-movement, and must zero the mask. -/
def handlerC7 : Handler :=
  { clearHandler with movement_detected := true, mask_enabled := true, thumbnail_size := ⟨2, 2⟩ }

/-- C8 witness state: thumbnail ratio 5.0 (outside `[0.01, 1.0]`) and a
control-frame capacity of zero. -/
def handlerC8 : Handler :=
  { clearHandler with thumbnail_ratio := ⟨5, 1⟩, number_of_control_frames := 0 }

/-- C8 counterexample state: thumbnail ratio 0.005, below the clamp range
`[0.01, 1.0]`.  On a 2×2 frame the clamped ratio 0.01 yields a zero-width
thumbnail and the resize call throws. -/
def handlerC8cex : Handler := { clearHandler with thumbnail_ratio := ⟨1, 200⟩ }

/-- C9 witness state: bounding-box annotation requested on a cleared
handler (2×2 thumbnail size pre-cached). -/
def handlerC9 : Handler :=
  { clearHandler with bbox_enabled := true, thumbnail_size := ⟨2, 2⟩ }

/-- C10 counterexample state: a cleared handler with thumbnail ratio
`0.5`; a 2×2 first frame caches the degenerate 1×1 thumbnail size (area
1), so the size is recomputed for the 4×4 second frame and the stored 1×1
thumbnail no longer matches. -/
def handlerC10 : Handler := { clearHandler with thumbnail_ratio := ⟨1, 2⟩ }

/-- C10 witness state: a cached thumbnail size of area 2 (so it is never
recomputed). -/
def handlerC10w : Handler := { clearHandler with thumbnail_size := ⟨2, 1⟩ }

/-!
## Library lemmas about the control-buffer operations
-/

theorem evictLoop_length (cap : ℕ) (m : List (ℕ × Img)) :
    (evictLoop cap m).length = min m.length cap := by
  induction m with
  | nil => simp [evictLoop]
  | cons x rest ih =>
    simp only [evictLoop, List.length_cons]
    split
    · rw [ih]; omega
    · simp only [List.length_cons]; omega

theorem evictLoop_of_le (cap : ℕ) (m : List (ℕ × Img)) (hm : m.length ≤ cap) :
    evictLoop cap m = m := by
  cases m with
  | nil => rfl
  | cons x rest =>
    simp only [evictLoop]
    rw [if_neg]
    simp only [List.length_cons] at hm
    omega

theorem evictLoop_suffix (cap : ℕ) (m : List (ℕ × Img)) :
    ∃ dropped, dropped ++ evictLoop cap m = m := by
  induction m with
  | nil => exact ⟨[], rfl⟩
  | cons x rest ih =>
    simp only [evictLoop]
    split
    · obtain ⟨d, hd⟩ := ih
      exact ⟨x :: d, by simp [hd]⟩
    · exact ⟨[], rfl⟩

theorem keysOf_mapInsert (k : ℕ) (v : Img) (m : List (ℕ × Img)) :
    ∀ j ∈ keysOf (mapInsert k v m), j = k ∨ j ∈ keysOf m := by
  induction m with
  | nil =>
    intro j hj
    simp only [mapInsert, keysOf, List.map_cons, List.map_nil, List.mem_singleton] at hj
    exact Or.inl hj
  | cons x rest ih =>
    intro j hj
    simp only [mapInsert] at hj
    split at hj
    · simp only [keysOf, List.map_cons, List.mem_cons] at hj ⊢
      tauto
    · split at hj
      · simp only [keysOf, List.map_cons, List.mem_cons] at hj ⊢
        tauto
      · simp only [keysOf, List.map_cons, List.mem_cons] at hj ⊢
        rcases hj with hj | hj
        · exact Or.inr (Or.inl hj)
        · rcases ih j hj with hj' | hj'
          · exact Or.inl hj'
          · exact Or.inr (Or.inr hj')

theorem mapInsert_length_le (k : ℕ) (v : Img) (m : List (ℕ × Img)) :
    (mapInsert k v m).length ≤ m.length + 1 := by
  induction m with
  | nil => simp [mapInsert]
  | cons x rest ih =>
    simp only [mapInsert]
    split
    · simp
    · split
      · simp
      · simp only [List.length_cons]
        omega

theorem mapInsert_length_of_not_mem (k : ℕ) (v : Img) (m : List (ℕ × Img))
    (hk : k ∉ keysOf m) : (mapInsert k v m).length = m.length + 1 := by
  induction m with
  | nil => simp [mapInsert]
  | cons x rest ih =>
    simp only [keysOf, List.map_cons, List.mem_cons, not_or] at hk
    simp only [mapInsert]
    split
    · simp
    · split
      · exact absurd (by assumption) hk.1
      · simp only [List.length_cons]
        rw [ih hk.2]

theorem mapSorted_mapInsert (k : ℕ) (v : Img) (m : List (ℕ × Img))
    (hs : MapSorted m) : MapSorted (mapInsert k v m) := by
  induction m with
  | nil => simp [mapInsert, MapSorted]
  | cons x rest ih =>
    rw [MapSorted, List.pairwise_cons] at hs
    simp only [mapInsert]
    split
    · rw [MapSorted, List.pairwise_cons]
      refine ⟨?_, ?_⟩
      · intro p hp
        rcases List.mem_cons.mp hp with hp | hp
        · subst hp; assumption
        · exact lt_trans (by assumption) (hs.1 p hp)
      · exact List.pairwise_cons.mpr hs
    · split
      · rw [MapSorted, List.pairwise_cons]
        refine ⟨fun p hp => ?_, hs.2⟩
        have hk : k = x.1 := by assumption
        rw [hk]
        exact hs.1 p hp
      · rw [MapSorted, List.pairwise_cons]
        refine ⟨?_, ih hs.2⟩
        intro p hp
        have hp' := keysOf_mapInsert k v rest p.1 (List.mem_map_of_mem Prod.fst hp)
        rcases hp' with hp' | hp'
        · rw [hp']
          omega
        · obtain ⟨q, hq, hq1⟩ := List.mem_map.mp hp'
          have := hs.1 q hq
          omega

theorem mapSorted_of_append (d s : List (ℕ × Img)) (hs : MapSorted (d ++ s)) :
    MapSorted s :=
  ((List.pairwise_append.mp hs).2).1

theorem sorted_append_lt (d s : List (ℕ × Img)) (hs : MapSorted (d ++ s)) :
    ∀ p ∈ d, ∀ q ∈ s, p.1 < q.1 :=
  (List.pairwise_append.mp hs).2.2

/-!
## Library lemmas about `psnr`
-/

theorem zipWith_self_sum_zero {α : Type} (f : α → α → ℕ) (hf : ∀ x, f x x = 0) :
    ∀ l : List α, (List.zipWith f l l).sum = 0 := by
  intro l
  induction l with
  | nil => rfl
  | cons x rest ih => simp [hf, ih]

theorem sseVal_self (m : Img) : sseVal m m = 0 := by
  have hch : ∀ ch, channelSSE m m ch = 0 := by
    intro ch
    unfold channelSSE
    exact zipWith_self_sum_zero _
      (fun row => zipWith_self_sum_zero _ (fun px => by simp [sqDiff]) row) m.data
  simp [sseVal, hch]

theorem psnr_self (m : Img) (hm : m.empty = false) :
    psnr m m = .ok PsnrScore.zero := by
  simp [psnr, hm, sseVal_self]

theorem psnr_ok_of_match (a b : Img) (ha : a.empty = false) (hb : b.empty = false)
    (hc : a.channels = b.channels) (hw : a.cols = b.cols) (hr : a.rows = b.rows) :
    ∃ s, psnr a b = .ok s := by
  simp only [psnr, ha, hb, hc, hw, hr, bne_self_eq_false, Bool.or_self, Bool.or_false,
    Bool.false_or, Bool.false_eq_true, if_false]
  split
  · exact ⟨_, rfl⟩
  · exact ⟨_, rfl⟩

theorem isOkB_iff (r : Except String Bool) : isOkB r = true ↔ ∃ b, r = .ok b := by
  cases r with
  | error e => simp [isOkB]
  | ok b => simp [isOkB]

theorem psnr_error_messages (a b : Img) (e : String) (he : psnr a b = .error e) :
    e = "cannot calculate psnr using empty image" ∨
    e = "src and dst images cannot be compared" := by
  unfold psnr at he
  split at he
  · simp only [Except.error.injEq] at he
    exact Or.inl he.symm
  · split at he
    · simp only [Except.error.injEq] at he
      exact Or.inr he.symm
    · dsimp only at he
      split at he <;> cases he

/-!
## Shape lemmas: which fields each phase of `detect` can touch
-/

theorem updateThumbSize_shape (h : Handler) (img : Img) :
    ∃ r s, updateThumbSize h img = { h with thumbnail_ratio := r, thumbnail_size := s } := by
  unfold updateThumbSize
  split
  · exact ⟨_, _, rfl⟩
  · exact ⟨h.thumbnail_ratio, h.thumbnail_size, rfl⟩

theorem entryState_shape (h : Handler) (img : Img) :
    ∃ r s b, entryState h img =
        { h with thumbnail_ratio := r, thumbnail_size := s, mask_enabled := b } ∧
      (h.mask_enabled = true → b = true) ∧
      ((h.contours_enabled || h.bbox_enabled) = true → b = true) := by
  obtain ⟨r, s, hu⟩ := updateThumbSize_shape h img
  unfold entryState forceMask
  rw [hu]
  by_cases hc : (h.contours_enabled || h.bbox_enabled) = true
  · rw [if_pos hc]
    exact ⟨r, s, true, rfl, fun _ => rfl, fun _ => rfl⟩
  · rw [if_neg hc]
    exact ⟨r, s, h.mask_enabled, rfl, fun hm => hm, fun hcc => absurd hcc hc⟩

theorem compareLoop_shape (h : Handler) (tn : Img) (fi now : ℕ) (img : Img)
    (l : List (ℕ × Img)) :
    ∃ md sc ts fim mk, (compareLoop h tn fi now img l).2 =
      { h with movement_detected := md, most_recent_psnr_score := sc,
               movement_last_detected := ts, frame_index_with_movement := fim,
               mask := mk } := by
  induction l generalizing h with
  | nil =>
    exact ⟨h.movement_detected, h.most_recent_psnr_score, h.movement_last_detected,
      h.frame_index_with_movement, h.mask, rfl⟩
  | cons kv rest ih =>
    simp only [compareLoop]
    cases hp : psnr kv.2 tn with
    | error e =>
      exact ⟨h.movement_detected, h.most_recent_psnr_score, h.movement_last_detected,
        h.frame_index_with_movement, h.mask, rfl⟩
    | ok score =>
      simp only []
      split
      · split
        · exact ⟨true, score, now, fi, _, rfl⟩
        · exact ⟨true, score, now, fi, h.mask, rfl⟩
      · obtain ⟨md, sc, ts, fim, mk, hih⟩ := ih { h with most_recent_psnr_score := score }
        exact ⟨md, sc, ts, fim, mk, by rw [hih]⟩

theorem compareLoop_error_shape (h : Handler) (tn : Img) (fi now : ℕ) (img : Img)
    (l : List (ℕ × Img)) (e : String) (h' : Handler)
    (hc : compareLoop h tn fi now img l = (some e, h')) :
    ∃ sc, h' = { h with most_recent_psnr_score := sc } := by
  induction l generalizing h with
  | nil => exact absurd hc (by simp [compareLoop])
  | cons kv rest ih =>
    simp only [compareLoop] at hc
    cases hp : psnr kv.2 tn with
    | error e' =>
      rw [hp] at hc
      simp only [Prod.mk.injEq] at hc
      exact ⟨h.most_recent_psnr_score, by rw [← hc.2]⟩
    | ok score =>
      rw [hp] at hc
      simp only [] at hc
      split at hc
      · simp only [Prod.mk.injEq] at hc
        exact absurd hc.1 (by simp)
      · obtain ⟨sc, hsc⟩ := ih { h with most_recent_psnr_score := score } hc
        exact ⟨sc, by rw [hsc]⟩

theorem compareLoop_error_msg (h : Handler) (tn : Img) (fi now : ℕ) (img : Img)
    (l : List (ℕ × Img)) (e : String) (h' : Handler)
    (hc : compareLoop h tn fi now img l = (some e, h')) :
    e = "cannot calculate psnr using empty image" ∨
    e = "src and dst images cannot be compared" := by
  induction l generalizing h with
  | nil => exact absurd hc (by simp [compareLoop])
  | cons kv rest ih =>
    simp only [compareLoop] at hc
    cases hp : psnr kv.2 tn with
    | error e' =>
      rw [hp] at hc
      simp only [Prod.mk.injEq, Option.some.injEq] at hc
      rw [← hc.1]
      exact psnr_error_messages kv.2 tn e' hp
    | ok score =>
      rw [hp] at hc
      simp only [] at hc
      split at hc
      · simp only [Prod.mk.injEq] at hc
        exact absurd hc.1 (by simp)
      · exact ih _ hc

theorem compareLoop_none_of_ok (h : Handler) (tn : Img) (fi now : ℕ) (img : Img)
    (l : List (ℕ × Img)) (hall : ∀ kv ∈ l, ∃ s, psnr kv.2 tn = Except.ok s) :
    (compareLoop h tn fi now img l).1 = none := by
  induction l generalizing h with
  | nil => rfl
  | cons kv rest ih =>
    obtain ⟨s, hs⟩ := hall kv (List.mem_cons_self kv rest)
    simp only [compareLoop, hs]
    split
    · rfl
    · exact ih _ (fun kv' hkv' => hall kv' (List.mem_cons_of_mem kv hkv'))

theorem maskAndAnnotate_shape (h : Handler) (img : Img) :
    ∃ mk out, maskAndAnnotate h img = { h with mask := mk, output := out } ∧
      (h.mask_enabled = true → h.transition_detected = true →
        h.movement_detected = false → mk = zeroMask img.rows img.cols) := by
  unfold maskAndAnnotate
  split
  · split
    · dsimp only
      split
      · exact ⟨_, _, rfl, fun _ _ _ => rfl⟩
      · exact ⟨zeroMask img.rows img.cols, h.output, rfl, fun _ _ _ => rfl⟩
    · rename_i hm hcond
      dsimp only
      split
      · refine ⟨h.mask, _, rfl, fun _ htr hmv => ?_⟩
        exact absurd (by simp [htr, hmv] : (h.mask.empty ||
          (h.transition_detected && h.movement_detected == false)) = true) hcond
      · refine ⟨h.mask, h.output, rfl, fun _ htr hmv => ?_⟩
        exact absurd (by simp [htr, hmv] : (h.mask.empty ||
          (h.transition_detected && h.movement_detected == false)) = true) hcond
  · rename_i hm
    exact ⟨h.mask, h.output, rfl, fun hme => absurd hme (by simpa using hm)⟩

theorem admitControl_shape (h : Handler) (fi : ℕ) (tn : Img) :
    ∃ c n, admitControl h fi tn = { h with control := c, next_key_frame := n } ∧
      ((c = h.control ∧ n = h.next_key_frame) ∨
        (c = evictLoop h.number_of_control_frames (mapInsert fi tn h.control) ∧
          n = fi + h.key_frame_frequency)) ∧
      ((fi ≥ h.next_key_frame ∨ h.control.length < h.number_of_control_frames) →
        c = evictLoop h.number_of_control_frames (mapInsert fi tn h.control) ∧
          n = fi + h.key_frame_frequency) := by
  unfold admitControl
  split
  · exact ⟨_, _, rfl, Or.inr ⟨rfl, rfl⟩, fun _ => ⟨rfl, rfl⟩⟩
  · rename_i hcond
    refine ⟨h.control, h.next_key_frame, rfl, Or.inl ⟨rfl, rfl⟩, fun hdis => ?_⟩
    exact absurd (by simpa using hdis) (by simpa using hcond)

theorem loopStart_shape (h : Handler) (img : Img) :
    ∃ r s b, loopStart h img =
        { h with thumbnail_ratio := r, thumbnail_size := s, mask_enabled := b,
                 movement_detected := false } ∧
      (h.mask_enabled = true → b = true) ∧
      ((h.contours_enabled || h.bbox_enabled) = true → b = true) := by
  obtain ⟨r, s, b, he, hm, hc⟩ := entryState_shape h img
  exact ⟨r, s, b, by rw [loopStart, he], hm, hc⟩

theorem loopStart_control (h : Handler) (img : Img) :
    (loopStart h img).control = h.control := by
  obtain ⟨r, s, b, he, -, -⟩ := loopStart_shape h img
  rw [he]

theorem loopStart_cap (h : Handler) (img : Img) :
    (loopStart h img).number_of_control_frames = h.number_of_control_frames := by
  obtain ⟨r, s, b, he, -, -⟩ := loopStart_shape h img
  rw [he]

theorem entryState_movement (h : Handler) (img : Img) :
    (entryState h img).movement_detected = h.movement_detected := by
  obtain ⟨r, s, b, he, -, -⟩ := entryState_shape h img
  rw [he]

theorem entryState_control (h : Handler) (img : Img) :
    (entryState h img).control = h.control := by
  obtain ⟨r, s, b, he, -, -⟩ := entryState_shape h img
  rw [he]

theorem entryState_cap (h : Handler) (img : Img) :
    (entryState h img).number_of_control_frames = h.number_of_control_frames := by
  obtain ⟨r, s, b, he, -, -⟩ := entryState_shape h img
  rw [he]

theorem compareLoop_controlEq (h : Handler) (tn : Img) (fi now : ℕ) (img : Img)
    (l : List (ℕ × Img)) : (compareLoop h tn fi now img l).2.control = h.control := by
  obtain ⟨md, sc, ts, fim, mk, hs⟩ := compareLoop_shape h tn fi now img l
  rw [hs]

theorem compareLoop_capEq (h : Handler) (tn : Img) (fi now : ℕ) (img : Img)
    (l : List (ℕ × Img)) :
    (compareLoop h tn fi now img l).2.number_of_control_frames =
      h.number_of_control_frames := by
  obtain ⟨md, sc, ts, fim, mk, hs⟩ := compareLoop_shape h tn fi now img l
  rw [hs]

theorem finishDetect_shape (prev : Bool) (h4 : Handler) (fi : ℕ) (img tn : Img) :
    ∃ mk out c n, finishDetect prev h4 fi img tn =
      { h4 with transition_detected := prev != h4.movement_detected,
                mask := mk, output := out, control := c, next_key_frame := n,
                next_frame_index := fi + 1 } ∧
      ((c = h4.control ∧ n = h4.next_key_frame) ∨
        (c = evictLoop h4.number_of_control_frames (mapInsert fi tn h4.control) ∧
          n = fi + h4.key_frame_frequency)) ∧
      ((fi ≥ h4.next_key_frame ∨ h4.control.length < h4.number_of_control_frames) →
        c = evictLoop h4.number_of_control_frames (mapInsert fi tn h4.control)) ∧
      (h4.mask_enabled = true → (prev != h4.movement_detected) = true →
        h4.movement_detected = false → mk = zeroMask img.rows img.cols) := by
  obtain ⟨mk, out, hma, hmz⟩ :=
    maskAndAnnotate_shape { h4 with transition_detected := prev != h4.movement_detected } img
  obtain ⟨c, n, hac, hcases, hforce⟩ :=
    admitControl_shape
      (maskAndAnnotate { h4 with transition_detected := prev != h4.movement_detected } img)
      fi tn
  rw [hma] at hac hcases hforce
  refine ⟨mk, out, c, n, ?_, ?_, ?_, ?_⟩
  · unfold finishDetect
    dsimp only
    rw [hma, hac]
  · exact hcases
  · intro hdis
    exact (hforce hdis).1
  · exact hmz

theorem finishDetect_movement (prev : Bool) (h4 : Handler) (fi : ℕ) (img tn : Img) :
    (finishDetect prev h4 fi img tn).movement_detected = h4.movement_detected := by
  obtain ⟨mk, out, c, n, hfd, -, -, -⟩ := finishDetect_shape prev h4 fi img tn
  rw [hfd]

/-!
## Case analysis of `detect`
-/

theorem detect_empty_eq (h : Handler) (fi : ℕ) (img : Img) (t : ℕ)
    (himg : img.empty = true) :
    detect h fi img t = (.error "cannot detect using an empty image", h) := by
  unfold detect
  rw [if_pos himg]

theorem detect_resize_eq (h : Handler) (fi : ℕ) (img : Img) (t : ℕ)
    (himg : img.empty = false)
    (hz : (entryState h img).thumbnail_size.width = 0 ∨
      (entryState h img).thumbnail_size.height = 0) :
    detect h fi img t =
      (.error "OpenCV(resize): the computed thumbnail size is empty", entryState h img) := by
  unfold detect
  rw [if_neg (by simp [himg]), if_pos hz]

theorem detect_some_eq (h : Handler) (fi : ℕ) (img : Img) (t : ℕ) (e : String)
    (h4 : Handler) (himg : img.empty = false)
    (hz : ¬((entryState h img).thumbnail_size.width = 0 ∨
      (entryState h img).thumbnail_size.height = 0))
    (hl : compareLoop (loopStart h img) (entryThumb h img) fi t img
            (loopStart h img).control.reverse = (some e, h4)) :
    detect h fi img t = (.error e, h4) := by
  unfold detect
  rw [if_neg (by simp [himg]), if_neg hz]
  dsimp only
  rw [hl]

theorem detect_none_eq (h : Handler) (fi : ℕ) (img : Img) (t : ℕ)
    (h4 : Handler) (himg : img.empty = false)
    (hz : ¬((entryState h img).thumbnail_size.width = 0 ∨
      (entryState h img).thumbnail_size.height = 0))
    (hl : compareLoop (loopStart h img) (entryThumb h img) fi t img
            (loopStart h img).control.reverse = (none, h4)) :
    detect h fi img t =
      (.ok (finishDetect (entryState h img).movement_detected h4 fi img
              (entryThumb h img)).movement_detected,
        finishDetect (entryState h img).movement_detected h4 fi img (entryThumb h img)) := by
  unfold detect
  rw [if_neg (by simp [himg]), if_neg hz]
  dsimp only
  rw [hl]

theorem detect_cases (h : Handler) (fi : ℕ) (img : Img) (t : ℕ) :
    (img.empty = true ∧
      detect h fi img t = (.error "cannot detect using an empty image", h)) ∨
    (img.empty = false ∧
      ((entryState h img).thumbnail_size.width = 0 ∨
        (entryState h img).thumbnail_size.height = 0) ∧
      detect h fi img t =
        (.error "OpenCV(resize): the computed thumbnail size is empty", entryState h img)) ∨
    (img.empty = false ∧ ∃ e h4,
      compareLoop (loopStart h img) (entryThumb h img) fi t img
        (loopStart h img).control.reverse = (some e, h4) ∧
      detect h fi img t = (.error e, h4)) ∨
    (img.empty = false ∧ ∃ h4,
      compareLoop (loopStart h img) (entryThumb h img) fi t img
        (loopStart h img).control.reverse = (none, h4) ∧
      detect h fi img t =
        (.ok (finishDetect (entryState h img).movement_detected h4 fi img
                (entryThumb h img)).movement_detected,
          finishDetect (entryState h img).movement_detected h4 fi img (entryThumb h img))) := by
  by_cases himg : img.empty = true
  · exact Or.inl ⟨himg, detect_empty_eq h fi img t himg⟩
  · have himg' : img.empty = false := by
      cases hb : img.empty
      · rfl
      · exact absurd hb himg
    by_cases hz : (entryState h img).thumbnail_size.width = 0 ∨
        (entryState h img).thumbnail_size.height = 0
    · exact Or.inr (Or.inl ⟨himg', hz, detect_resize_eq h fi img t himg' hz⟩)
    · rcases hcl : compareLoop (loopStart h img) (entryThumb h img) fi t img
          (loopStart h img).control.reverse with ⟨o, h4⟩
      cases o with
      | some e =>
        exact Or.inr (Or.inr (Or.inl
          ⟨himg', e, h4, rfl, detect_some_eq h fi img t e h4 himg' hz hcl⟩))
      | none =>
        exact Or.inr (Or.inr (Or.inr
          ⟨himg', h4, rfl, detect_none_eq h fi img t h4 himg' hz hcl⟩))

theorem detect_ok_dest (h : Handler) (fi : ℕ) (img : Img) (t : ℕ) (b : Bool)
    (h' : Handler) (hd : detect h fi img t = (.ok b, h')) :
    img.empty = false ∧ ∃ h4,
      compareLoop (loopStart h img) (entryThumb h img) fi t img
        (loopStart h img).control.reverse = (none, h4) ∧
      b = h4.movement_detected ∧
      h' = finishDetect (entryState h img).movement_detected h4 fi img (entryThumb h img) := by
  rcases detect_cases h fi img t with ⟨himg, he⟩ | ⟨himg, hz, he⟩ |
    ⟨himg, e, h4, hcl, he⟩ | ⟨himg, h4, hcl, he⟩
  · rw [he] at hd
    simp only [Prod.mk.injEq] at hd
    exact absurd hd.1 (by simp)
  · rw [he] at hd
    simp only [Prod.mk.injEq] at hd
    exact absurd hd.1 (by simp)
  · rw [he] at hd
    simp only [Prod.mk.injEq] at hd
    exact absurd hd.1 (by simp)
  · rw [he] at hd
    simp only [Prod.mk.injEq, Except.ok.injEq] at hd
    refine ⟨himg, h4, hcl, ?_, hd.2.symm⟩
    rw [← hd.1, finishDetect_movement]

theorem detect_err_dest (h : Handler) (fi : ℕ) (img : Img) (t : ℕ) (e : String)
    (h' : Handler) (hd : detect h fi img t = (.error e, h')) :
    (img.empty = true ∧ e = "cannot detect using an empty image" ∧ h' = h) ∨
    (img.empty = false ∧
      e = "OpenCV(resize): the computed thumbnail size is empty" ∧
      h' = entryState h img) ∨
    (img.empty = false ∧
      (e = "cannot calculate psnr using empty image" ∨
        e = "src and dst images cannot be compared") ∧
      ∃ sc, h' = { loopStart h img with most_recent_psnr_score := sc }) := by
  rcases detect_cases h fi img t with ⟨himg, he⟩ | ⟨himg, hz, he⟩ |
    ⟨himg, e', h4, hcl, he⟩ | ⟨himg, h4, hcl, he⟩
  · rw [he] at hd
    simp only [Prod.mk.injEq, Except.error.injEq] at hd
    exact Or.inl ⟨himg, hd.1.symm, hd.2.symm⟩
  · rw [he] at hd
    simp only [Prod.mk.injEq, Except.error.injEq] at hd
    exact Or.inr (Or.inl ⟨himg, hd.1.symm, hd.2.symm⟩)
  · rw [he] at hd
    simp only [Prod.mk.injEq, Except.error.injEq] at hd
    obtain ⟨sc, hsc⟩ := compareLoop_error_shape _ _ _ _ _ _ _ _ hcl
    refine Or.inr (Or.inr ⟨himg, ?_, sc, by rw [← hd.2, hsc]⟩)
    rw [← hd.1]
    exact compareLoop_error_msg _ _ _ _ _ _ _ _ hcl
  · rw [he] at hd
    simp only [Prod.mk.injEq] at hd
    exact absurd hd.1 (by simp)

theorem pair_eta_fst {α β : Type} (p : α × β) (x : α) (hx : p.1 = x) : p = (x, p.2) := by
  rw [← hx]

/-!
## Derived facts about how `detect` transforms the control buffer
-/

theorem detect_capEq (h : Handler) (fi : ℕ) (img : Img) (t : ℕ) :
    (detect h fi img t).2.number_of_control_frames = h.number_of_control_frames := by
  rcases detect_cases h fi img t with ⟨himg, he⟩ | ⟨himg, hz, he⟩ |
    ⟨himg, e, h4, hcl, he⟩ | ⟨himg, h4, hcl, he⟩
  · rw [he]
  · rw [he]
    exact entryState_cap h img
  · rw [he]
    obtain ⟨sc, hsc⟩ := compareLoop_error_shape _ _ _ _ _ _ _ _ hcl
    show h4.number_of_control_frames = h.number_of_control_frames
    rw [hsc]
    exact loopStart_cap h img
  · rw [he]
    obtain ⟨mk, out, c, n, hfd, -, -, -⟩ :=
      finishDetect_shape (entryState h img).movement_detected h4 fi img (entryThumb h img)
    have h2 : (compareLoop (loopStart h img) (entryThumb h img) fi t img
        (loopStart h img).control.reverse).2 = h4 := by rw [hcl]
    have hcap : h4.number_of_control_frames = h.number_of_control_frames := by
      rw [← h2, compareLoop_capEq, loopStart_cap]
    show (finishDetect (entryState h img).movement_detected h4 fi img
        (entryThumb h img)).number_of_control_frames = h.number_of_control_frames
    rw [hfd]
    exact hcap

theorem detect_control_cases (h : Handler) (fi : ℕ) (img : Img) (t : ℕ) :
    (detect h fi img t).2.control = h.control ∨
    ∃ v, (detect h fi img t).2.control =
      evictLoop h.number_of_control_frames (mapInsert fi v h.control) := by
  rcases detect_cases h fi img t with ⟨himg, he⟩ | ⟨himg, hz, he⟩ |
    ⟨himg, e, h4, hcl, he⟩ | ⟨himg, h4, hcl, he⟩
  · rw [he]
    exact Or.inl rfl
  · rw [he]
    exact Or.inl (entryState_control h img)
  · rw [he]
    obtain ⟨sc, hsc⟩ := compareLoop_error_shape _ _ _ _ _ _ _ _ hcl
    left
    show h4.control = h.control
    rw [hsc]
    exact loopStart_control h img
  · rw [he]
    obtain ⟨mk, out, c, n, hfd, hcases, -, -⟩ :=
      finishDetect_shape (entryState h img).movement_detected h4 fi img (entryThumb h img)
    have h2 : (compareLoop (loopStart h img) (entryThumb h img) fi t img
        (loopStart h img).control.reverse).2 = h4 := by rw [hcl]
    have hctl : h4.control = h.control := by
      rw [← h2, compareLoop_controlEq, loopStart_control]
    have hcap : h4.number_of_control_frames = h.number_of_control_frames := by
      rw [← h2, compareLoop_capEq, loopStart_cap]
    have hproj : (finishDetect (entryState h img).movement_detected h4 fi img
        (entryThumb h img)).control = c := by rw [hfd]
    rcases hcases with ⟨hc, -⟩ | ⟨hc, -⟩
    · left
      show (finishDetect (entryState h img).movement_detected h4 fi img
        (entryThumb h img)).control = h.control
      rw [hproj, hc, hctl]
    · right
      refine ⟨entryThumb h img, ?_⟩
      show (finishDetect (entryState h img).movement_detected h4 fi img
        (entryThumb h img)).control =
        evictLoop h.number_of_control_frames (mapInsert fi (entryThumb h img) h.control)
      rw [hproj, hc, hctl, hcap]

theorem detect_ok_admit (h : Handler) (fi : ℕ) (img : Img) (t : ℕ) (b : Bool)
    (hd : detect h fi img t = (.ok b, (detect h fi img t).2))
    (hlen : h.control.length < h.number_of_control_frames) :
    (detect h fi img t).2.control = mapInsert fi (entryThumb h img) h.control := by
  obtain ⟨himg, h4, hcl, hb, hh'⟩ := detect_ok_dest h fi img t b _ hd
  obtain ⟨mk, out, c, n, hfd, -, hforce, -⟩ :=
    finishDetect_shape (entryState h img).movement_detected h4 fi img (entryThumb h img)
  have h2 : (compareLoop (loopStart h img) (entryThumb h img) fi t img
      (loopStart h img).control.reverse).2 = h4 := by rw [hcl]
  have hctl : h4.control = h.control := by
    rw [← h2, compareLoop_controlEq, loopStart_control]
  have hcap : h4.number_of_control_frames = h.number_of_control_frames := by
    rw [← h2, compareLoop_capEq, loopStart_cap]
  have hcond : fi ≥ h4.next_key_frame ∨
      h4.control.length < h4.number_of_control_frames := by
    right
    rw [hctl, hcap]
    exact hlen
  have hc := hforce hcond
  rw [hh', hfd]
  show c = mapInsert fi (entryThumb h img) h.control
  rw [hc, hctl, hcap]
  exact evictLoop_of_le _ _ (le_trans (mapInsert_length_le _ _ _) hlen)

theorem detect_keys_subset (h : Handler) (fi : ℕ) (img : Img) (t : ℕ) :
    ∀ j ∈ keysOf (detect h fi img t).2.control, j = fi ∨ j ∈ keysOf h.control := by
  rcases detect_control_cases h fi img t with hc | ⟨v, hc⟩
  · rw [hc]
    exact fun j hj => Or.inr hj
  · rw [hc]
    intro j hj
    obtain ⟨d, hd⟩ := evictLoop_suffix h.number_of_control_frames (mapInsert fi v h.control)
    have hj' : j ∈ keysOf (mapInsert fi v h.control) := by
      rw [← hd]
      unfold keysOf at hj ⊢
      rw [List.map_append]
      exact List.mem_append_right _ hj
    exact keysOf_mapInsert fi v h.control j hj'

theorem detect_sorted (h : Handler) (fi : ℕ) (img : Img) (t : ℕ)
    (hs : MapSorted h.control) : MapSorted (detect h fi img t).2.control := by
  rcases detect_control_cases h fi img t with hc | ⟨v, hc⟩ <;> rw [hc]
  · exact hs
  · obtain ⟨d, hd⟩ := evictLoop_suffix h.number_of_control_frames (mapInsert fi v h.control)
    exact mapSorted_of_append d _ (by rw [hd]; exact mapSorted_mapInsert fi v h.control hs)

/-!
## Run-level facts (sequences of `detect` calls)
-/

theorem runDetect_capEq (h : Handler) (fs : List (ℕ × Img)) :
    (runDetect h fs).number_of_control_frames = h.number_of_control_frames := by
  induction fs generalizing h with
  | nil => rfl
  | cons p rest ih =>
    rcases p with ⟨i, img⟩
    simp only [runDetect]
    rw [ih, detect_capEq]

theorem runDetect_control_le (h : Handler) (fs : List (ℕ × Img))
    (hlen : h.control.length ≤ h.number_of_control_frames) :
    (runDetect h fs).control.length ≤ h.number_of_control_frames := by
  induction fs generalizing h with
  | nil => exact hlen
  | cons p rest ih =>
    rcases p with ⟨i, img⟩
    simp only [runDetect]
    have hstep : (detect h i img 0).2.control.length ≤
        (detect h i img 0).2.number_of_control_frames := by
      rw [detect_capEq]
      rcases detect_control_cases h i img 0 with hc | ⟨v, hc⟩
      · rw [hc]
        exact hlen
      · rw [hc, evictLoop_length]
        omega
    have := ih (detect h i img 0).2 hstep
    rwa [detect_capEq] at this

theorem runDetect_bootstrap (fs : List (ℕ × Img)) (h : Handler)
    (hfresh : ∀ k ∈ keysOf h.control, ∀ p ∈ fs, k < p.1)
    (hmono : fs.Pairwise (fun p q => p.1 < q.1))
    (hok : runOk h fs = true) :
    ∀ j, j ≤ fs.length → h.control.length + j ≤ h.number_of_control_frames →
      (runDetect h (fs.take j)).control.length = h.control.length + j := by
  induction fs generalizing h with
  | nil =>
    intro j hj _
    have : j = 0 := Nat.le_zero.mp hj
    subst this
    rfl
  | cons p rest ih =>
    rcases p with ⟨i, img⟩
    intro j hj hcap
    cases j with
    | zero => rfl
    | succ j' =>
      simp only [List.take_succ_cons, runDetect]
      simp only [runOk, Bool.and_eq_true] at hok
      obtain ⟨hok1, hokrest⟩ := hok
      obtain ⟨b, hb⟩ := (isOkB_iff _).mp hok1
      have hfreshi : i ∉ keysOf h.control := by
        intro hk
        exact lt_irrefl i (hfresh i hk (i, img) (List.mem_cons_self _ _))
      have hlt : h.control.length < h.number_of_control_frames := by omega
      have hctl := detect_ok_admit h i img 0 b (pair_eta_fst _ _ hb) hlt
      have hlen1 : (detect h i img 0).2.control.length = h.control.length + 1 := by
        rw [hctl]
        exact mapInsert_length_of_not_mem i _ h.control hfreshi
      rw [List.pairwise_cons] at hmono
      have hfresh1 : ∀ k ∈ keysOf (detect h i img 0).2.control, ∀ q ∈ rest, k < q.1 := by
        intro k hk q hq
        rcases detect_keys_subset h i img 0 k hk with hk' | hk'
        · rw [hk']
          exact hmono.1 q hq
        · exact hfresh k hk' q (List.mem_cons_of_mem _ hq)
      have hres := ih (detect h i img 0).2 hfresh1 hmono.2 hokrest j'
        (by simpa using hj) (by rw [hlen1, detect_capEq]; omega)
      rw [hres, hlen1]
      omega

/-!
## Field-tracking lemmas used by the per-claim theorems
-/

theorem compareLoop_maskEnabledEq (h : Handler) (tn : Img) (fi now : ℕ) (img : Img)
    (l : List (ℕ × Img)) :
    (compareLoop h tn fi now img l).2.mask_enabled = h.mask_enabled := by
  obtain ⟨md, sc, ts, fim, mk, hs⟩ := compareLoop_shape h tn fi now img l
  rw [hs]

theorem compareLoop_ratioEq (h : Handler) (tn : Img) (fi now : ℕ) (img : Img)
    (l : List (ℕ × Img)) :
    (compareLoop h tn fi now img l).2.thumbnail_ratio = h.thumbnail_ratio := by
  obtain ⟨md, sc, ts, fim, mk, hs⟩ := compareLoop_shape h tn fi now img l
  rw [hs]

theorem detect_maskEnabledEq (h : Handler) (fi : ℕ) (img : Img) (t : ℕ)
    (hne : img.empty = false) :
    (detect h fi img t).2.mask_enabled = (entryState h img).mask_enabled := by
  rcases detect_cases h fi img t with ⟨himg, -⟩ | ⟨-, hz, he⟩ |
    ⟨-, e, h4, hcl, he⟩ | ⟨-, h4, hcl, he⟩
  · rw [himg] at hne
    cases hne
  · rw [he]
  · rw [he]
    obtain ⟨sc, hsc⟩ := compareLoop_error_shape _ _ _ _ _ _ _ _ hcl
    show h4.mask_enabled = _
    rw [hsc]
    rfl
  · rw [he]
    obtain ⟨mk, out, c, n, hfd, -, -, -⟩ :=
      finishDetect_shape (entryState h img).movement_detected h4 fi img (entryThumb h img)
    have h2 : (compareLoop (loopStart h img) (entryThumb h img) fi t img
        (loopStart h img).control.reverse).2 = h4 := by rw [hcl]
    show (finishDetect (entryState h img).movement_detected h4 fi img
        (entryThumb h img)).mask_enabled = (entryState h img).mask_enabled
    rw [hfd]
    show h4.mask_enabled = _
    rw [← h2, compareLoop_maskEnabledEq]
    rfl

theorem detect_ratioEq (h : Handler) (fi : ℕ) (img : Img) (t : ℕ)
    (hne : img.empty = false) :
    (detect h fi img t).2.thumbnail_ratio = (entryState h img).thumbnail_ratio := by
  rcases detect_cases h fi img t with ⟨himg, -⟩ | ⟨-, hz, he⟩ |
    ⟨-, e, h4, hcl, he⟩ | ⟨-, h4, hcl, he⟩
  · rw [himg] at hne
    cases hne
  · rw [he]
  · rw [he]
    obtain ⟨sc, hsc⟩ := compareLoop_error_shape _ _ _ _ _ _ _ _ hcl
    show h4.thumbnail_ratio = _
    rw [hsc]
    rfl
  · rw [he]
    obtain ⟨mk, out, c, n, hfd, -, -, -⟩ :=
      finishDetect_shape (entryState h img).movement_detected h4 fi img (entryThumb h img)
    have h2 : (compareLoop (loopStart h img) (entryThumb h img) fi t img
        (loopStart h img).control.reverse).2 = h4 := by rw [hcl]
    show (finishDetect (entryState h img).movement_detected h4 fi img
        (entryThumb h img)).thumbnail_ratio = (entryState h img).thumbnail_ratio
    rw [hfd]
    show h4.thumbnail_ratio = _
    rw [← h2, compareLoop_ratioEq]
    rfl

theorem entryState_ratio_of_small (h : Handler) (img : Img)
    (ha : h.thumbnail_size.area ≤ 1) :
    (entryState h img).thumbnail_ratio = clampF h.thumbnail_ratio ⟨1, 100⟩ ⟨1, 1⟩ := by
  unfold entryState forceMask updateThumbSize
  rw [if_pos ha]
  dsimp only
  split <;> rfl

theorem entryState_size_of_large (h : Handler) (img : Img)
    (ha : ¬h.thumbnail_size.area ≤ 1) :
    (entryState h img).thumbnail_size = h.thumbnail_size := by
  unfold entryState forceMask updateThumbSize
  rw [if_neg ha]
  split <;> rfl

theorem clampF_unit_bounds (v : Frac) :
    Frac.le ⟨1, 100⟩ (clampF v ⟨1, 100⟩ ⟨1, 1⟩) = true ∧
    Frac.le (clampF v ⟨1, 100⟩ ⟨1, 1⟩) ⟨1, 1⟩ = true := by
  unfold clampF
  split_ifs with h1 h2
  · exact ⟨by decide, by decide⟩
  · exact ⟨by decide, by decide⟩
  · simp only [Frac.lt, decide_eq_true_eq, not_lt] at h1 h2
    simp only [Frac.le, decide_eq_true_eq]
    omega

theorem resizeArea_cols (m : Img) (w h : ℕ) : (resizeArea m w h).cols = w := rfl

theorem resizeArea_rows (m : Img) (w h : ℕ) : (resizeArea m w h).rows = h := rfl

theorem resizeArea_channels (m : Img) (w h : ℕ) :
    (resizeArea m w h).channels = m.channels := rfl

/-!
## Claim theorems
-/

/-- C1: for every pair of identical nonempty frames the code's `psnr`
returns the literal `0.0` (the `sse <= 1e-10` branch), and `0.0` is below
the default threshold `32.0` — i.e. the engine treats identical frames as
maximally *different*, not as maximally similar.  This documents the code's
actual behaviour at the claim's inputs: the claim (and the function's own
documentation, which says values near zero mean many changes were
detected) requires the saturation value instead, so the claim is right and
the code wrong. -/
theorem C1_psnr_identical_returns_zero (img : Img) (hne : img.empty = false) :
    psnr img img = Except.ok PsnrScore.zero ∧
    PsnrScore.ltQ PsnrScore.zero clearHandler.psnr_threshold = true := by
  exact ⟨psnr_self img hne, by decide⟩

/-- C1 witness: the theorem applied to a concrete 1×1 three-channel
frame. -/
theorem C1_witness :
    psnr (solid 1 1 [5, 6, 7]) (solid 1 1 [5, 6, 7]) = Except.ok PsnrScore.zero ∧
    PsnrScore.ltQ PsnrScore.zero clearHandler.psnr_threshold = true :=
  C1_psnr_identical_returns_zero (solid 1 1 [5, 6, 7]) (by decide)

/-- C2: the concrete default-configuration scenario of the claim, as the
code actually behaves.  Five identical 20×20 solid-colour frames at
indices 0–4 are fed to a freshly cleared handler: the first call returns
`false`, but the remaining four return `true` (the psnr of identical
thumbnails is the code's `0.0`, which is below the threshold `32.0`), and
the control buffer ends with exactly the four entries 0,1,2,3.  The claim
says all five calls return `false`; the buffer part of the claim holds. -/
theorem C2_identical_frames_run :
    runResults clearHandler framesC2 =
      [Except.ok false, Except.ok true, Except.ok true, Except.ok true, Except.ok true] ∧
    keysOf (runDetect clearHandler framesC2).control = [0, 1, 2, 3] := by
  decide

/-- C3 counterexample: a failed `detect` call does mutate engine state.
The handler starts with `movement_detected = true` and one stored 2×2
three-channel control thumbnail; the input frame is 2×2 single-channel, so
the comparison loop's `psnr` throws the mismatch error — but by then line
163 has already reset `movement_detected` to `false`, so after the failed
call the field differs from its pre-call value. -/
theorem C3_counterexample :
    (detect handlerC3 1 (solid 2 2 [7]) 0).1 =
      .error "src and dst images cannot be compared" ∧
    handlerC3.movement_detected = true ∧
    (detect handlerC3 1 (solid 2 2 [7]) 0).2.movement_detected = false := by
  decide

/-- C3 (amended): an empty-frame failure mutates nothing at all (the check
precedes every mutation).  A comparison failure — a `psnr` exception
thrown inside the loop, carrying one of the two `psnr` messages — leaves
the control buffer, `next_frame_index`, `next_key_frame`,
`transition_detected`, `frame_index_with_movement`,
`movement_last_detected`, the mask and the output unchanged, but
`movement_detected` has already been reset to `false` by the time the
exception escapes (the thumbnail-sizing fields and `mask_enabled` may also
have been recomputed at call entry).  The thumbnail-resize failure (a
degenerate computed thumbnail size) escapes before line 163 and leaves all
of those fields — `movement_detected` included — unchanged. -/
theorem C3_failure_mutation (h : Handler) (fi t : ℕ) (img : Img) :
    (img.empty = true →
      detect h fi img t = (.error "cannot detect using an empty image", h)) ∧
    (∀ e h', detect h fi img t = (.error e, h') →
      (e = "cannot calculate psnr using empty image" ∨
        e = "src and dst images cannot be compared") →
      h'.control = h.control ∧ h'.next_frame_index = h.next_frame_index ∧
      h'.next_key_frame = h.next_key_frame ∧
      h'.transition_detected = h.transition_detected ∧
      h'.frame_index_with_movement = h.frame_index_with_movement ∧
      h'.movement_last_detected = h.movement_last_detected ∧
      h'.mask = h.mask ∧ h'.output = h.output ∧
      h'.movement_detected = false) ∧
    (∀ h', detect h fi img t =
        (.error "OpenCV(resize): the computed thumbnail size is empty", h') →
      h'.control = h.control ∧ h'.next_frame_index = h.next_frame_index ∧
      h'.next_key_frame = h.next_key_frame ∧
      h'.transition_detected = h.transition_detected ∧
      h'.frame_index_with_movement = h.frame_index_with_movement ∧
      h'.movement_last_detected = h.movement_last_detected ∧
      h'.mask = h.mask ∧ h'.output = h.output ∧
      h'.movement_detected = h.movement_detected) := by
  refine ⟨detect_empty_eq h fi img t, ?_, ?_⟩
  · intro e h' hd hmsg
    rcases detect_err_dest h fi img t e h' hd with ⟨-, hee, -⟩ | ⟨-, hee, -⟩ |
      ⟨-, -, sc, hsc⟩
    · subst hee
      rcases hmsg with hm | hm <;> exact absurd hm (by decide)
    · subst hee
      rcases hmsg with hm | hm <;> exact absurd hm (by decide)
    · obtain ⟨r, s, b, hls, -, -⟩ := loopStart_shape h img
      rw [hsc, hls]
      exact ⟨rfl, rfl, rfl, rfl, rfl, rfl, rfl, rfl, rfl⟩
  · intro h' hd
    rcases detect_err_dest h fi img t _ h' hd with ⟨-, hee, -⟩ | ⟨-, -, hsc⟩ |
      ⟨-, hmsg, -⟩
    · exact absurd hee (by decide)
    · obtain ⟨r, s, b, hes, -, -⟩ := entryState_shape h img
      rw [hsc, hes]
      exact ⟨rfl, rfl, rfl, rfl, rfl, rfl, rfl, rfl, rfl⟩
    · rcases hmsg with hm | hm <;> exact absurd hm (by decide)

/-- C3 witness: the amended theorem applied to three concrete failing
calls: an empty frame (state returned untouched), the channel-mismatch
state of the counterexample (buffer and counters untouched,
`movement_detected` reset), and a resize failure from a clamped tiny
ratio (`movement_detected` and the buffer untouched). -/
theorem C3_witness :
    detect clearHandler 0 ⟨0, 0, 3, []⟩ 0 =
      (.error "cannot detect using an empty image", clearHandler) ∧
    ((detect handlerC3 1 (solid 2 2 [7]) 0).2.control = handlerC3.control ∧
     (detect handlerC3 1 (solid 2 2 [7]) 0).2.movement_detected = false) ∧
    ((detect handlerC3b 0 (solid 2 2 [5, 6, 7]) 0).2.movement_detected =
       handlerC3b.movement_detected ∧
     (detect handlerC3b 0 (solid 2 2 [5, 6, 7]) 0).2.control = handlerC3b.control) := by
  refine ⟨(C3_failure_mutation clearHandler 0 0 ⟨0, 0, 3, []⟩).1 (by decide), ?_, ?_⟩
  · have h2 := (C3_failure_mutation handlerC3 1 0 (solid 2 2 [7])).2.1
      "src and dst images cannot be compared" _ (pair_eta_fst _ _ (by decide)) (Or.inr rfl)
    exact ⟨h2.1, h2.2.2.2.2.2.2.2.2⟩
  · have h3 := (C3_failure_mutation handlerC3b 0 0 (solid 2 2 [5, 6, 7])).2.2 _
      (pair_eta_fst _ _ (by decide))
    exact ⟨h3.2.2.2.2.2.2.2.2, h3.1⟩

/-- C4: starting from an empty control buffer, for every sequence of
successful `detect` calls with distinct strictly increasing frame indices
— whatever the key-frame interval — the buffer never exceeds the
configured capacity after any call, and during the first `capacity` calls
it grows by exactly one entry per call (the length after the `j`-th call
is exactly `j`). -/
theorem C4_bootstrap (h0 : Handler) (fs : List (ℕ × Img))
    (hc : h0.control = [])
    (hmono : fs.Pairwise (fun p q => p.1 < q.1))
    (hok : runOk h0 fs = true) :
    (∀ j, (runDetect h0 (fs.take j)).control.length ≤ h0.number_of_control_frames) ∧
    (∀ j, j ≤ fs.length → j ≤ h0.number_of_control_frames →
      (runDetect h0 (fs.take j)).control.length = j) := by
  constructor
  · intro j
    exact runDetect_control_le h0 (fs.take j) (by simp [hc])
  · intro j hj hcapj
    have hfresh : ∀ k ∈ keysOf h0.control, ∀ p ∈ fs, k < p.1 := by
      rw [hc]
      intro k hk
      simp [keysOf] at hk
    have hcap : h0.control.length + j ≤ h0.number_of_control_frames := by
      rw [hc]
      simpa using hcapj
    have hb := runDetect_bootstrap fs h0 hfresh hmono hok j hj hcap
    rw [hc] at hb
    simpa using hb

/-- C4 witness: two identical 2×2 frames at indices 0 and 1 fed to a
cleared handler (capacity 4): the buffer grows by one entry on each call
and stays within capacity. -/
theorem C4_witness :
    (runDetect handlerC4 (framesC4.take 1)).control.length = 1 ∧
    (runDetect handlerC4 (framesC4.take 2)).control.length = 2 ∧
    (runDetect handlerC4 (framesC4.take 2)).control.length ≤
      handlerC4.number_of_control_frames := by
  have h := C4_bootstrap handlerC4 framesC4 (by decide) (by decide) (by decide)
  exact ⟨h.2 1 (by decide) (by decide), h.2 2 (by decide) (by decide), h.1 2⟩

/-- C5: the control-buffer invariant and eviction policy.  A `detect`
call keeps the buffer sorted by frame index, never grows it past the
configured capacity (starting from a within-capacity buffer), changes it
only by the retain-then-evict operation, and the retain-then-evict
operation itself removes the entries with the smallest frame indices
first, repeatedly, leaving exactly `capacity` entries whenever the
insertion exceeded it (the kept entries form a suffix dominated by every
dropped entry). -/
theorem C5_eviction (h : Handler) (fi t : ℕ) (img : Img) (hs : MapSorted h.control) :
    MapSorted (detect h fi img t).2.control ∧
    (h.control.length ≤ h.number_of_control_frames →
      (detect h fi img t).2.control.length ≤ h.number_of_control_frames) ∧
    ((detect h fi img t).2.control = h.control ∨
      ∃ v, (detect h fi img t).2.control =
        evictLoop h.number_of_control_frames (mapInsert fi v h.control)) ∧
    (∀ cap v,
      (evictLoop cap (mapInsert fi v h.control)).length =
        min (mapInsert fi v h.control).length cap ∧
      ∃ dropped,
        dropped ++ evictLoop cap (mapInsert fi v h.control) = mapInsert fi v h.control ∧
        ∀ p ∈ dropped, ∀ q ∈ evictLoop cap (mapInsert fi v h.control), p.1 < q.1) := by
  refine ⟨detect_sorted h fi img t hs, ?_, detect_control_cases h fi img t, ?_⟩
  · intro hle
    rcases detect_control_cases h fi img t with hc | ⟨v, hc⟩
    · rw [hc]
      exact hle
    · rw [hc, evictLoop_length]
      omega
  · intro cap v
    obtain ⟨d, hd⟩ := evictLoop_suffix cap (mapInsert fi v h.control)
    refine ⟨evictLoop_length cap _, d, hd, ?_⟩
    exact sorted_append_lt d _ (by rw [hd]; exact mapSorted_mapInsert fi v h.control hs)

/-- C5 witness: a capacity-2 handler holding entries 0 and 1 admits frame
5; the result stays sorted and within capacity (entry 0 was evicted). -/
theorem C5_witness :
    MapSorted (detect handlerC5 5 (solid 2 2 [5, 6, 7]) 0).2.control ∧
    (detect handlerC5 5 (solid 2 2 [5, 6, 7]) 0).2.control.length ≤
      handlerC5.number_of_control_frames := by
  have h := C5_eviction handlerC5 5 0 (solid 2 2 [5, 6, 7]) (by unfold MapSorted; decide)
  exact ⟨h.1, h.2.1 (by decide)⟩

/-- C6: after every successful `detect` call, `transition_detected` holds
exactly when the call's boolean result differs from the previous call's
result (held in `movement_detected` at entry), the result is stored back
into `movement_detected`, and a cleared handler starts from the
no-movement state with no transition — so the very first call compares
against `false`. -/
theorem C6_transition (h : Handler) (fi t : ℕ) (img : Img) (b : Bool) (h' : Handler)
    (hd : detect h fi img t = (.ok b, h')) :
    (h'.transition_detected = true ↔ b ≠ h.movement_detected) ∧
    h'.movement_detected = b ∧
    clearHandler.movement_detected = false ∧
    clearHandler.transition_detected = false := by
  obtain ⟨himg, h4, hcl, hb, hh'⟩ := detect_ok_dest h fi img t b h' hd
  obtain ⟨mk, out, c, n, hfd, -, -, -⟩ :=
    finishDetect_shape (entryState h img).movement_detected h4 fi img (entryThumb h img)
  have htr : h'.transition_detected =
      ((entryState h img).movement_detected != h4.movement_detected) := by
    rw [hh', hfd]
  have hmv : h'.movement_detected = h4.movement_detected := by
    rw [hh', finishDetect_movement]
  refine ⟨?_, by rw [hmv, ← hb], rfl, rfl⟩
  rw [htr, entryState_movement, ← hb, bne_iff_ne]
  exact ne_comm

/-- C6 witness: the first call of a cleared handler returns `false` and
reports no transition (compared against the initial no-movement state). -/
theorem C6_witness :
    ((detect handlerC6 0 (solid 2 2 [5, 6, 7]) 0).2.transition_detected = true ↔
      (false : Bool) ≠ handlerC6.movement_detected) ∧
    (detect handlerC6 0 (solid 2 2 [5, 6, 7]) 0).2.movement_detected = false := by
  have h := C6_transition handlerC6 0 0 (solid 2 2 [5, 6, 7]) false _
    (pair_eta_fst _ _ (by decide))
  exact ⟨h.1, h.2.1⟩

/-- C7: on every successful call made with mask generation enabled whose
result is `false` while the previous state was movement (a transition
into no-movement), the mask afterwards is the all-zero single-channel
buffer of the input frame's size. -/
theorem C7_mask_zero (h : Handler) (fi t : ℕ) (img : Img) (b : Bool) (h' : Handler)
    (hd : detect h fi img t = (.ok b, h'))
    (hm : h.mask_enabled = true) (hprev : h.movement_detected = true)
    (hb : b = false) :
    h'.mask = zeroMask img.rows img.cols := by
  obtain ⟨himg, h4, hcl, hbeq, hh'⟩ := detect_ok_dest h fi img t b h' hd
  obtain ⟨mk, out, c, n, hfd, -, -, hmz⟩ :=
    finishDetect_shape (entryState h img).movement_detected h4 fi img (entryThumb h img)
  have h2 : (compareLoop (loopStart h img) (entryThumb h img) fi t img
      (loopStart h img).control.reverse).2 = h4 := by rw [hcl]
  obtain ⟨md, sc, ts, fim, mk4, hshape⟩ :=
    compareLoop_shape (loopStart h img) (entryThumb h img) fi t img
      (loopStart h img).control.reverse
  rw [h2] at hshape
  obtain ⟨r, s, bl, hls, hlm, -⟩ := loopStart_shape h img
  have hme4 : h4.mask_enabled = true := by
    rw [hshape]
    show (loopStart h img).mask_enabled = true
    rw [hls]
    exact hlm hm
  have hmv4 : h4.movement_detected = false := by
    rw [← hbeq]
    exact hb
  have hprev' : (entryState h img).movement_detected = true := by
    rw [entryState_movement]
    exact hprev
  have htrb : ((entryState h img).movement_detected != h4.movement_detected) = true := by
    rw [hprev', hmv4]
    rfl
  have hz := hmz hme4 htrb hmv4
  rw [hh', hfd]
  exact hz

/-- C7 witness: mask enabled, movement previously detected, empty control
buffer: the call returns `false` and the mask becomes the 2×2 zero
mask. -/
theorem C7_witness :
    (detect handlerC7 0 (solid 2 2 [5, 6, 7]) 0).2.mask = zeroMask 2 2 :=
  C7_mask_zero handlerC7 0 0 (solid 2 2 [5, 6, 7]) false _
    (pair_eta_fst _ _ (by decide)) rfl rfl rfl

/-- C8 counterexample: a configuration in the claim's scope on which
`detect` does fail.  With thumbnail ratio 0.005 — outside `[0.01, 1.0]`,
witnessed by the first conjunct — a non-empty 2×2 frame has its ratio
clamped to 0.01, the thumbnail width truncates to `(int)(2*0.01) = 0`,
and the resize call of line 156 throws. -/
theorem C8_counterexample :
    Frac.lt handlerC8cex.thumbnail_ratio ⟨1, 100⟩ = true ∧
    (solid 2 2 [5, 6, 7]).empty = false ∧
    (detect handlerC8cex 0 (solid 2 2 [5, 6, 7]) 0).1 =
      .error "OpenCV(resize): the computed thumbnail size is empty" := by
  decide

/-- C8 (amended): out-of-range thumbnail ratios and a zero capacity are
clamped or normalised, never themselves rejected — but `detect` can still
fail after clamping.  With any non-empty frame: when the thumbnail size
is (re)computed the ratio is first clamped into `[0.01, 1.0]` and the
clamped value is written back; a capacity of zero simply keeps the buffer
empty (every admission immediately evicts); and a call on an empty
control buffer succeeds provided the computed thumbnail dimensions are
positive — when the frame dimension times the clamped ratio truncates to
a zero thumbnail dimension, the resize call throws instead (the
counterexample). -/
theorem C8_config_edge_cases (h : Handler) (fi t : ℕ) (img : Img)
    (hne : img.empty = false) :
    (h.control = [] → (entryState h img).thumbnail_size.width ≠ 0 →
      (entryState h img).thumbnail_size.height ≠ 0 →
      (detect h fi img t).1 = .ok false) ∧
    (h.thumbnail_size.area ≤ 1 →
      (detect h fi img t).2.thumbnail_ratio = clampF h.thumbnail_ratio ⟨1, 100⟩ ⟨1, 1⟩ ∧
      Frac.le ⟨1, 100⟩ (detect h fi img t).2.thumbnail_ratio = true ∧
      Frac.le (detect h fi img t).2.thumbnail_ratio ⟨1, 1⟩ = true) ∧
    (h.number_of_control_frames = 0 → h.control = [] →
      (detect h fi img t).2.control = []) := by
  refine ⟨?_, ?_, ?_⟩
  · intro hc hw hh
    have hctl0 : (loopStart h img).control = [] := by rw [loopStart_control, hc]
    rcases detect_cases h fi img t with ⟨himg, -⟩ | ⟨-, hz, -⟩ |
      ⟨-, e, h4, hcl, -⟩ | ⟨-, h4, hcl, he⟩
    · rw [himg] at hne
      cases hne
    · rcases hz with hz | hz
      · exact absurd hz hw
      · exact absurd hz hh
    · rw [hctl0] at hcl
      simp only [List.reverse_nil, compareLoop] at hcl
      simp at hcl
    · rw [he]
      rw [hctl0] at hcl
      simp only [List.reverse_nil, compareLoop, Prod.mk.injEq, true_and] at hcl
      show Except.ok _ = Except.ok false
      rw [finishDetect_movement, ← hcl]
      rfl
  · intro ha
    have hr := detect_ratioEq h fi img t hne
    rw [hr, entryState_ratio_of_small h img ha]
    exact ⟨rfl, (clampF_unit_bounds h.thumbnail_ratio).1,
      (clampF_unit_bounds h.thumbnail_ratio).2⟩
  · intro hcap hc
    rcases detect_control_cases h fi img t with hcc | ⟨v, hcc⟩
    · rw [hcc, hc]
    · rw [hcc, hcap]
      have hlen := evictLoop_length 0 (mapInsert fi v h.control)
      rw [Nat.min_zero] at hlen
      exact List.length_eq_zero.mp hlen

/-- C8 witness: a handler with thumbnail ratio 5.0 and capacity 0 accepts
a 2×2 frame: the clamped ratio 1.0 gives a positive 2×2 thumbnail, the
call succeeds, the ratio ends clamped, the buffer stays empty. -/
theorem C8_witness :
    (detect handlerC8 0 (solid 2 2 [5, 6, 7]) 0).1 = .ok false ∧
    (detect handlerC8 0 (solid 2 2 [5, 6, 7]) 0).2.thumbnail_ratio =
      clampF handlerC8.thumbnail_ratio ⟨1, 100⟩ ⟨1, 1⟩ ∧
    (detect handlerC8 0 (solid 2 2 [5, 6, 7]) 0).2.control = [] := by
  have h := C8_config_edge_cases handlerC8 0 0 (solid 2 2 [5, 6, 7]) (by decide)
  exact ⟨h.1 rfl (by decide) (by decide), (h.2.1 (by decide)).1, h.2.2 rfl rfl⟩

/-- C9: executing `detect` on a non-empty frame with contours or bounding
box enabled permanently forces `mask_enabled` on; once `mask_enabled` is
true no `detect` call ever resets it (even a failing one); only `clear`
restores it to `false` (a cleared handler has it off). -/
theorem C9_mask_forced (h : Handler) (fi t : ℕ) (img : Img) :
    (img.empty = false → (h.contours_enabled || h.bbox_enabled) = true →
      (detect h fi img t).2.mask_enabled = true) ∧
    (h.mask_enabled = true → (detect h fi img t).2.mask_enabled = true) ∧
    clearHandler.mask_enabled = false := by
  obtain ⟨r, s, b, hes, hmono, hforced⟩ := entryState_shape h img
  refine ⟨?_, ?_, rfl⟩
  · intro hne hcb
    rw [detect_maskEnabledEq h fi img t hne, hes]
    exact hforced hcb
  · intro hm
    by_cases hne : img.empty = true
    · rw [detect_empty_eq h fi img t hne]
      exact hm
    · have hne' : img.empty = false := by
        revert hne
        cases img.empty <;> simp
      rw [detect_maskEnabledEq h fi img t hne', hes]
      exact hmono hm

/-- C9 witness: a handler with only `bbox_enabled` set has `mask_enabled`
forced on by a call, while a cleared handler has it off. -/
theorem C9_witness :
    (detect handlerC9 0 (solid 2 2 [5, 6, 7]) 0).2.mask_enabled = true ∧
    clearHandler.mask_enabled = false := by
  have h := C9_mask_forced handlerC9 0 0 (solid 2 2 [5, 6, 7])
  exact ⟨h.1 (by decide) rfl, h.2.2⟩

/-- C10 counterexample: a dimension-mismatch error is reachable from
`detect` with channel-matching frames.  With thumbnail ratio 0.5, a 2×2
first frame caches a 1×1 thumbnail size, whose area 1 causes the size to
be recomputed on the next call; a 4×4 second frame then produces a 2×2
thumbnail which is compared against the stored 1×1 thumbnail, and `psnr`
throws the comparison error even though both frames have 3 channels. -/
theorem C10_counterexample :
    (detect (detect handlerC10 0 (solid 2 2 [9, 9, 9]) 0).2 1 (solid 4 4 [9, 9, 9]) 0).1 =
      .error "src and dst images cannot be compared" ∧
    (solid 4 4 [9, 9, 9]).channels = (solid 2 2 [9, 9, 9]).channels ∧
    (solid 4 4 [9, 9, 9]).empty = false := by
  decide

/-- C10 (amended): when the cached thumbnail size has area at least 2 the
size is never recomputed, every frame is resized to it, and a `detect`
call on a non-empty frame whose channel count matches the stored control
thumbnails (all of which carry the cached thumbnail dimensions) cannot
raise the comparison error: it succeeds.  (When the cached area is at
most 1 — as in the counterexample — the size is recomputed from each
frame and a dimension mismatch is reachable.) -/
theorem C10_no_mismatch_when_cached (h : Handler) (fi t : ℕ) (img : Img)
    (harea : 2 ≤ h.thumbnail_size.area)
    (hctl : ∀ p ∈ h.control, p.2.cols = h.thumbnail_size.width ∧
      p.2.rows = h.thumbnail_size.height ∧ p.2.channels = img.channels ∧
      p.2.empty = false)
    (hne : img.empty = false) :
    ∃ b, (detect h fi img t).1 = Except.ok b := by
  have hnle : ¬h.thumbnail_size.area ≤ 1 := by omega
  have hsz : (entryState h img).thumbnail_size = h.thumbnail_size :=
    entryState_size_of_large h img hnle
  have hthumb_cols : (entryThumb h img).cols = h.thumbnail_size.width := by
    unfold entryThumb
    rw [resizeArea_cols, hsz]
  have hthumb_rows : (entryThumb h img).rows = h.thumbnail_size.height := by
    unfold entryThumb
    rw [resizeArea_rows, hsz]
  have hthumb_ch : (entryThumb h img).channels = img.channels := by
    unfold entryThumb
    rw [resizeArea_channels]
  have harea' : 2 ≤ h.thumbnail_size.width * h.thumbnail_size.height := harea
  have hthumb_ne : (entryThumb h img).empty = false := by
    have hprod : (entryThumb h img).rows * (entryThumb h img).cols ≠ 0 := by
      rw [hthumb_rows, hthumb_cols, Nat.mul_comm]
      omega
    simp [Img.empty, Img.total, hprod]
  have hall : ∀ kv ∈ (loopStart h img).control.reverse,
      ∃ sc, psnr kv.2 (entryThumb h img) = Except.ok sc := by
    intro kv hkv
    rw [loopStart_control] at hkv
    obtain ⟨hcw, hcr, hcc, hcne⟩ := hctl kv (List.mem_reverse.mp hkv)
    exact psnr_ok_of_match kv.2 (entryThumb h img) hcne hthumb_ne
      (by rw [hcc, hthumb_ch]) (by rw [hcw, hthumb_cols]) (by rw [hcr, hthumb_rows])
  have hnone := compareLoop_none_of_ok (loopStart h img) (entryThumb h img) fi t img
    (loopStart h img).control.reverse hall
  rcases detect_cases h fi img t with ⟨himg, -⟩ | ⟨-, hz, -⟩ |
    ⟨-, e, h4, hcl, -⟩ | ⟨-, h4, hcl, he⟩
  · rw [himg] at hne
    cases hne
  · rw [hsz] at hz
    rcases hz with hz0 | hz0 <;> rw [hz0] at harea' <;> simp at harea'
  · rw [hcl] at hnone
    simp at hnone
  · rw [he]
    exact ⟨_, rfl⟩

/-- C10 witness: a handler with a cached 2×1 thumbnail size and an empty
control buffer accepts a 2×2 three-channel frame without error. -/
theorem C10_witness :
    ∃ b, (detect handlerC10w 0 (solid 2 2 [5, 6, 7]) 0).1 = Except.ok b :=
  C10_no_mismatch_when_cached handlerC10w 0 0 (solid 2 2 [5, 6, 7]) (by decide)
    (fun p hp => absurd hp (List.not_mem_nil p)) (by decide)

end MoveDetect
